import Mathlib

/-!
Verification of the VeeamPhaser container decoding engine against its
natural-language specification.

The definitions below are a shallow embedding of the C++ sources:
byte buffers become `List Nat` (one `Nat` per byte), packed records are
decoded with explicit little-endian readers, machine-integer casts are
written out as `% 2^32` / `% 2^64` arithmetic, and fallible code returns
`Option` or `Except`.  External libraries that the engine calls
(LZ4, zlib, zstd, MD5, the per-keyset AES cipher objects) are taken as
explicit function parameters of the embedding.
-/

set_option maxRecDepth 100000

namespace VeeamPhaser

/-! ## Byte-level helpers -/

/-- Little-endian read of `len` bytes of `l` starting at offset `off`.
Bytes past the end of the buffer read as zero. -/
def readLE (l : List Nat) (off : Nat) : Nat → Nat
  | 0 => 0
  | n + 1 => l.getD off 0 + 256 * readLE l (off + 1) n

/-- Reinterpret a 32-bit unsigned value as a signed `int32_t`. -/
def toInt32 (n : Nat) : Int :=
  if n % 2 ^ 32 < 2 ^ 31 then ((n % 2 ^ 32 : Nat) : Int)
  else ((n % 2 ^ 32 : Nat) : Int) - 2 ^ 32

/-- Reinterpret a 64-bit unsigned value as a signed `int64_t`. -/
def toInt64 (n : Nat) : Int :=
  if n % 2 ^ 64 < 2 ^ 63 then ((n % 2 ^ 64 : Nat) : Int)
  else ((n % 2 ^ 64 : Nat) : Int) - 2 ^ 64

/-- Conversion of a signed value to `size_t` (64-bit two's complement). -/
def toUInt64Wrap (i : Int) : Nat := (i % (2 : Int) ^ 64).toNat

/-- Conversion of a signed value to `uint32_t` (32-bit two's complement). -/
def toUInt32Wrap (i : Int) : Nat := (i % (2 : Int) ^ 32).toNat

/-- Model of `std::vector::resize(n)`: keep the first `n` elements, pad
with `pad` when growing. -/
def resizeList (l : List α) (n : Nat) (pad : α) : List α :=
  l.take n ++ List.replicate (n - l.length) pad

/-- Little-endian read out of a byte-indexed memory (`Nat → Nat`). -/
def readLEf (f : Nat → Nat) (off : Nat) : Nat → Nat
  | 0 => 0
  | n + 1 => f off + 256 * readLEf f (off + 1) n

/-! ## Format constants (`src/Veeam/VBK.hpp`, `src/core/structs.hpp`) -/

def PAGE_SIZE : Nat := 0x1000

def BLOCK_SIZE : Nat := 0x100000

def MAX_BANKS : Nat := 0xffa0

/-- The 128-bit value of `EMPTY_BLOCK_DIGEST`
(`digest_t(0xd872560a361bd8b6, 0x2c3e15390f43270c)`). -/
def EMPTY_BLOCK_DIGEST : Nat := 0x2c3e15390f43270c * 2 ^ 64 + 0xd872560a361bd8b6

/-! ## vcrc32

Modelled from the spec: `vcrc32` is an opaque external C function
("a specific CRC-32 variant") whose source is not part of the repository;
the spec and the unit tests pin its values on six inputs
(`vcrc32(0, "\x00"*n)` for n = 0..4, and `"Hello, World!"`).
Solving the linear structure of a byte-table CRC against those pins
recovers a reflected CRC-32 with polynomial constant `0x82F63B78`
(Castagnoli) and init = xorout = `0x035BD250`; that reconstruction
reproduces every pinned vector, including the "Hello, World!" one that
was not used while solving. -/

def vcrcPoly : Nat := 0x82F63B78

def vcrcInit : Nat := 0x035BD250

/-- One bit-step of the reflected CRC update. -/
def vcrcStep (r : Nat) : Nat := if r % 2 = 1 then (r / 2) ^^^ vcrcPoly else r / 2

/-- Table entry: eight bit-steps applied to a byte. -/
def vcrcTab (b : Nat) : Nat := vcrcStep^[8] b

/-- One byte-step of the CRC state. -/
def vcrcUpdate (s b : Nat) : Nat := (s / 256) ^^^ vcrcTab ((s ^^^ b) % 256)

/-- The vcrc32 function: `vcrc32(crc, buf, len)` over a byte list. -/
def vcrc32 (crc : Nat) (data : List Nat) : Nat :=
  (data.foldl vcrcUpdate (crc ^^^ vcrcInit)) ^^^ vcrcInit

/-! ## PhysPageId (`src/Veeam/VBK.hpp`) -/

/-- The `(bank_id, page_id)` page coordinate; fields are `int32_t` and
listed in memory order (`page_id` first). -/
structure PhysPageId where
  page_id : Int
  bank_id : Int
deriving DecidableEq, Repr

namespace PhysPageId

def isEmptyPpi (p : PhysPageId) : Bool := p.bank_id == -1 && p.page_id == -1

def zero (p : PhysPageId) : Bool := p.bank_id == 0 && p.page_id == 0

def valid (p : PhysPageId) : Bool :=
  p.bank_id > -1 && p.bank_id ≤ (MAX_BANKS : Int) && p.page_id > -1 && p.page_id ≤ 0x400

end PhysPageId

def INVALID_PPI : PhysPageId := ⟨-1, -1⟩

def DEFAULT_DATASTORE_PPI : PhysPageId := ⟨1, 0⟩

/-- Decode a `PhysPageId` from eight bytes at offset `off`. -/
def parsePpi (l : List Nat) (off : Nat) : PhysPageId :=
  ⟨toInt32 (readLE l off 4), toInt32 (readLE l (off + 4) 4)⟩

/-- Decode a `PhysPageId` from eight bytes of a byte-indexed memory. -/
def parsePpiF (f : Nat → Nat) (off : Nat) : PhysPageId :=
  ⟨toInt32 (readLEf f off 4), toInt32 (readLEf f (off + 4) 4)⟩

/-- A loaded bank buffer (`buf_t`, i.e. a `std::vector<uint8_t>`): the
vector's size together with its contents as a byte-indexed memory
`Nat → Nat` (the value at indices at or past `size` stands for the
indeterminate memory a C++ overread would hit). -/
structure Bank where
  size : Nat
  data : Nat → Nat

/-! ## CMeta::get_page (`src/core/CMeta.cpp`, lines 694-717)

A `CMeta` is modelled by its loaded bank buffers `banks : List Bank`.
`get_page` fails (returning `none`, the output buffer left cleared) when
the bank index — `ppi.bank_id` cast to `uint32_t` — is out of range, or
when the bank buffer's size is not strictly greater than
`(ppi.page_id + 1) * PAGE_SIZE` computed in `size_t` arithmetic.
On success the C++ copies `PAGE_SIZE` bytes starting at that offset into
a fresh buffer, modelled as the byte-indexed view of that window. -/
def get_page (banks : List Bank) (ppi : PhysPageId) : Option (Nat → Nat) :=
  let bankIdx := toUInt32Wrap ppi.bank_id
  let pageOff := toUInt64Wrap (ppi.page_id + 1) * PAGE_SIZE % 2 ^ 64
  if bankIdx < banks.length then
    let bank := banks.getD bankIdx ⟨0, fun _ => 0⟩
    if bank.size ≤ pageOff then none
    else some fun i => if i < PAGE_SIZE then bank.data (pageOff + i) else 0
  else none

/-! ## CPageStack (`src/Veeam/VBK/CPageStack.hpp`) -/

/-- Fuel-bounded loop of `calc_idx`: `while (page_idx+1 > 510*t) t *= 4`.
The guard fails after at most `log4` steps, so any fuel of `i + 2` or
more computes the exact fixpoint. -/
def calcTableNum : Nat → Nat → Nat → Nat
  | 0, _, t => t
  | f + 1, i, t => if i + 1 > 510 * t then calcTableNum f i (4 * t) else t

/-- `CPageStack::calc_idx`: position of entry `i` inside the linearized
table array. -/
def calc_idx (i : Nat) : Nat :=
  let t := calcTableNum (i + 2) i 1
  let r := t + i
  512 * (r / 511) + r % 511 + 1

/-- Entries per table page: `PAGE_SIZE / sizeof(PhysPageId)`. -/
def PPIS_PER_PAGE : Nat := PAGE_SIZE / 8

/-- Element `idx` of `m_pageTables`.  The flat `std::vector<PhysPageId>`
is the concatenation of the added pages (`CPageStack::add_page` memcpys
each page's `PPIS_PER_PAGE` entries), so entry `idx` is the packed record
at byte offset `8 * (idx % PPIS_PER_PAGE)` of page `idx / PPIS_PER_PAGE`. -/
def tableEntry (pages : List (Nat → Nat)) (idx : Nat) : PhysPageId :=
  parsePpiF (pages.getD (idx / PPIS_PER_PAGE) (fun _ => 0)) (8 * (idx % PPIS_PER_PAGE))

/-- Drop trailing entries failing `PhysPageId.valid` (the `while (i>0 && !valid)`
loop of `CPageStack::finalize`). -/
def trimTrailingInvalid (l : List PhysPageId) : List PhysPageId :=
  (l.reverse.dropWhile (fun p => !p.valid)).reverse

/-- `CPageStack::finalize`: map each entry index through `calc_idx` into the
table array (an index falling outside the table leaves the default
`PhysPageId()`, i.e. `(-1,-1)`), then trim trailing invalid entries. -/
def finalizeStack (pages : List (Nat → Nat)) : List PhysPageId :=
  trimTrailingInvalid
    ((List.range (PPIS_PER_PAGE * pages.length)).map fun i =>
      if calc_idx i < PPIS_PER_PAGE * pages.length then tableEntry pages (calc_idx i)
      else INVALID_PPI)

/-- Loop body of `CMeta::get_page_stack` (`src/core/CMeta.cpp`, lines 720-752):
follow the `next_ppi` links accumulating raw table pages.  The root page
must carry its own id at offset 8; a revisited page aborts the walk.
`fuel` bounds the iteration count; the C++ loop terminates because every
iteration inserts a fresh valid `PhysPageId` into the visited set and
there are finitely many valid ids, so a fuel larger than that count is
exact. -/
def gpsGo (banks : List Bank) (root : PhysPageId) :
    Nat → PhysPageId → Bool → List PhysPageId → List (Nat → Nat) → List (Nat → Nat)
  | 0, _, _, _, tables => tables
  | f + 1, cur, first, visited, tables =>
    if cur.valid then
      match get_page banks cur with
      | none => tables
      | some page =>
        if first && !(parsePpiF page 8 == root) then tables
        else if !first && visited.contains cur then tables
        else
          let tables' := tables ++ [page]
          gpsGo banks root f (parsePpiF page 0) false (visited ++ [cur]) tables'
    else tables

/-- An upper bound on the iteration count of the `get_page_stack` loop:
every iteration inserts into the visited set a fresh `PhysPageId` for
which `get_page` succeeded, distinct valid ids decode to distinct
`(bank, page-offset)` pairs, and a bank of `len` bytes serves at most
`len / PAGE_SIZE + 1` page offsets — so any fuel of at least this value
computes the exact C++ fixpoint. -/
def gpsFuel (banks : List Bank) : Nat :=
  (banks.map fun b => b.size / PAGE_SIZE + 1).sum + 1

/-- `CMeta::get_page_stack` followed by `CPageStack::finalize`: the ordered
list of payload page ids rooted at `ppi0`. -/
def get_page_stack (banks : List Bank) (ppi0 : PhysPageId) : List PhysPageId :=
  finalizeStack (gpsGo banks ppi0 (gpsFuel banks) ppi0 true [] [])

/-! ## BlockDescriptor (`src/core/structs.hpp`, lines 65-116) -/

/-- The 0x3C-byte datastore row, in field order of the packed struct. -/
structure BlockDescriptor where
  location : Nat
  usageCnt : Nat
  offset : Nat
  allocSize : Nat
  dedup : Nat
  digest : Nat
  compType : Nat
  unused : Nat
  compSize : Nat
  srcSize : Nat
  keysetID : Nat
deriving DecidableEq, Repr

/-- Byte size of a `BlockDescriptor` record. -/
def BD_SIZE : Nat := 0x3c

/-- Decode a `BlockDescriptor` from a 0x3C-byte chunk. -/
def parseBD (c : List Nat) : BlockDescriptor where
  location := c.getD 0 0
  usageCnt := readLE c 1 4
  offset := readLE c 5 8
  allocSize := readLE c 13 4
  dedup := c.getD 17 0
  digest := readLE c 18 16
  compType := c.getD 34 0
  unused := c.getD 35 0
  compSize := readLE c 36 4
  srcSize := readLE c 40 4
  keysetID := readLE c 44 16

/-- The `VALID_COMP_TYPE` macro: `CT_NONE (0xff)` or in `[CT_RLE (2), CT_ZSTD9 (9)]`. -/
def validCompType (x : Nat) : Bool := x == 0xff || (2 ≤ x && x ≤ 9)

/-- `BlockDescriptor::valid`: location is `BL_BLOCK_IN_BLOB (4)`,
`allocSize` is non-zero and at least `compSize`, and the record is either a
fully populated one (non-zero digest and sizes, known compression type) or
fully blank. -/
def bdValid (d : BlockDescriptor) : Bool :=
  d.location == 4 && d.allocSize != 0 && d.allocSize ≥ d.compSize &&
    ((d.digest != 0 && d.compSize != 0 && d.srcSize != 0 && validCompType d.compType) ||
     (d.digest == 0 && d.compSize == 0 && d.srcSize == 0 && d.compType == 0 && d.dedup == 0))

/-- `BlockDescriptor::empty`: the raw record is all-`0x00` or all-`0xFF`. -/
def emptyChunk (c : List Nat) : Bool :=
  c == List.replicate BD_SIZE 0 || c == List.replicate BD_SIZE 0xff

/-! ## The datastore map (`std::unordered_map<digest_t, BlockDescriptor>`)

The map is modelled as an association list from the 128-bit digest to the
raw 0x3C-byte record (observationally identical to storing the packed
struct: the parse covers every byte). -/

def bdFind (m : List (Nat × List Nat)) (d : Nat) : Option (List Nat) :=
  (m.find? fun e => e.1 == d).map (·.2)

/-- Map update `m[d] = c`: replace an existing binding in place, append
otherwise. -/
def bdInsert (m : List (Nat × List Nat)) (d : Nat) (c : List Nat) :
    List (Nat × List Nat) :=
  match m with
  | [] => [(d, c)]
  | e :: rest => if e.1 == d then (d, c) :: rest else e :: bdInsert rest d c

/-- Events the datastore reader reports through the logger. -/
inductive DsLog where
  | dupBD (old new : List Nat)
  | invalidBD (c : List Nat)
  | pageFail (p : PhysPageId)
deriving DecidableEq, Repr

/-- Split `cnt` record-sized chunks off a byte-indexed page (the pointer
walk of `buf_t::for_each<T>`, `cnt = size / sizeof(T)`). -/
def chunksOfF (k cnt : Nat) (page : Nat → Nat) : List (List Nat) :=
  (List.range cnt).map fun i => (List.range k).map fun j => page (k * i + j)

/-- Per-record body of `CMeta::read_datastore` (`src/core/CMeta.cpp`,
lines 974-995).  Empty records are skipped; valid records with non-zero
digest are stored (warning when a different record with the same digest is
already present); invalid records hit `log_or_die` — an exception when
`ignore_errors` is false, otherwise they are salvaged into the map only
when the digest is non-zero and still unbound. -/
def processDsChunk (ig : Bool) (st : List (Nat × List Nat) × List DsLog) (c : List Nat) :
    Except Unit (List (Nat × List Nat) × List DsLog) :=
  let bd := parseBD c
  if emptyChunk c then .ok st
  else if bdValid bd then
    if bd.digest ≠ 0 then
      let logs :=
        match bdFind st.1 bd.digest with
        | some old => if old ≠ c then st.2 ++ [.dupBD old c] else st.2
        | none => st.2
      .ok (bdInsert st.1 bd.digest c, logs)
    else .ok st
  else
    if ig then
      let m :=
        if bd.digest ≠ 0 ∧ bdFind st.1 bd.digest = none then bdInsert st.1 bd.digest c
        else st.1
      .ok (m, st.2 ++ [.invalidBD c])
    else .error ()

/-- `CMeta::read_datastore` (`src/core/CMeta.cpp`, lines 961-1001): walk the
PageStack rooted at `ppi0` and collect `BlockDescriptor` records of every
readable page (`PAGE_SIZE / sizeof(BlockDescriptor)` = 68 records per page). -/
def read_datastore (ig : Bool) (banks : List Bank) (ppi0 : PhysPageId) :
    Except Unit (List (Nat × List Nat) × List DsLog) :=
  (get_page_stack banks ppi0).foldlM
    (fun st ppi =>
      match get_page banks ppi with
      | some page => (chunksOfF BD_SIZE (PAGE_SIZE / BD_SIZE) page).foldlM (processDsChunk ig) st
      | none => if ig then .ok (st.1, st.2 ++ [.pageFail ppi]) else .error ())
    ([], [])

/-! ## Block-list records (`src/Veeam/VBK/SMetaTableDescriptor.hpp`,
`structs.hpp` `VBlockDesc`) -/

/-- `SMetaTableDescriptor`: `(ppi, block_size : i64, nBlocks : i64)`,
24 packed bytes. -/
structure SMetaTableDescriptor where
  ppi : PhysPageId
  block_size : Int
  nBlocks : Int
deriving DecidableEq, Repr

def MTD_SIZE : Nat := 24

def MTD_MAX_BLOCKS : Nat := 0x440

def parseMTD (c : List Nat) : SMetaTableDescriptor where
  ppi := parsePpi c 0
  block_size := toInt64 (readLE c 8 8)
  nBlocks := toInt64 (readLE c 16 8)

def SMetaTableDescriptor.is_sparse (d : SMetaTableDescriptor) : Bool :=
  d.nBlocks == 0 && d.ppi.isEmptyPpi && d.block_size == (BLOCK_SIZE : Int)

/-- `SMetaTableDescriptor::valid`: sparse, last-block, or regular shape. -/
def SMetaTableDescriptor.validMTD (d : SMetaTableDescriptor) : Bool :=
  if d.nBlocks == 0 then d.is_sparse
  else if d.nBlocks == 1 then
    d.ppi.valid && !d.ppi.zero && d.block_size > 0 && d.block_size < (BLOCK_SIZE : Int)
  else
    d.ppi.valid && !d.ppi.zero && d.block_size == (BLOCK_SIZE : Int) &&
      d.nBlocks > 0 && d.nBlocks ≤ (MTD_MAX_BLOCKS : Int)

/-- `VBlockDesc` (= `SFibBlockDescriptorV7`, 0x2E packed bytes), the
uniform per-block entry of `VAllBlocks`. -/
structure VBlockDesc where
  size : Nat
  type : Nat
  hash : Nat
  id : Nat
  vib_offset : Nat
  qw2 : Nat
  t2 : Nat
deriving DecidableEq, Repr

def VB_SIZE : Nat := 0x2e

def PATCH_SIZE : Nat := 0x35

def parseVB (c : List Nat) : VBlockDesc where
  size := readLE c 0 4
  type := c.getD 4 0
  hash := readLE c 5 16
  id := readLE c 21 8
  vib_offset := readLE c 29 8
  qw2 := readLE c 37 8
  t2 := c.getD 45 0

/-- A value-initialized `VBlockDesc` (what `std::vector::resize` appends). -/
def zeroVB : VBlockDesc := ⟨0, 0, 0, 0, 0, 0, 0⟩

/-- `VBlockDesc::is_zero` / `is_sparse`: the whole record is zero. -/
def VBlockDesc.is_sparse (b : VBlockDesc) : Bool := b == zeroVB

/-- `VBlockDesc::is_empty`: the hash is the canonical empty-block digest or
all zero. -/
def VBlockDesc.is_empty (b : VBlockDesc) : Bool :=
  b.hash == EMPTY_BLOCK_DIGEST || b.hash == 0

/-- `VBlockDesc::is_patch`: a full-size block carrying a patch offset. -/
def VBlockDesc.is_patch (b : VBlockDesc) : Bool :=
  b.size == BLOCK_SIZE && b.vib_offset != 0

/-! ## CMeta::get_file_blocks (`src/core/CMeta.cpp`, lines 1088-1147) -/

inductive EFileType where
  | FT_SUBFOLDER
  | FT_EXT_FIB
  | FT_INT_FIB
  | FT_PATCH
  | FT_INCREMENT
deriving DecidableEq, Repr

/-- The slice of `CMeta::VFile` that `get_file_blocks` consumes. -/
structure VFile where
  type : EFileType
  ppi : PhysPageId
  nBlocks : Int
  filesize : Int
deriving DecidableEq, Repr

/-- Early-stopping fold mirroring `buf_t::for_each<T>`: the callback
returns the new state and whether to continue. -/
def forEachChunks (f : σ → List Nat → σ × Bool) : List (List Nat) → σ → σ
  | [], st => st
  | c :: rest, st =>
    let r := f st c
    if r.2 then forEachChunks f rest r.1 else r.1

/-- The trailing-trim loop of `get_file_blocks`:
`while (size > 0 && size > nBlocks && last.is_sparse()) pop_back()`
(the `size > nBlocks` comparison promotes `nBlocks` to `size_t`). -/
def trimBlocks (nB : Int) : Nat → List VBlockDesc → List VBlockDesc
  | 0, l => l
  | f + 1, l =>
    if l.length > 0 ∧ l.length > toUInt64Wrap nB ∧
        ((l.getLast?.map VBlockDesc.is_sparse).getD false) = true then
      trimBlocks nB f l.dropLast
    else l

/-- Inner loop over one meta-table descriptor (the non-sparse arm of
lines 1124-1134): walk the descriptor's own PageStack collecting
`SFibBlockDescriptorV7` records, at most `nBlocks` of them in total across
its pages. -/
def collectFibBlocks (banks : List Bank) (d : SMetaTableDescriptor)
    (blocks : List VBlockDesc) : List VBlockDesc :=
  ((get_page_stack banks d.ppi).foldl
    (fun (st : List VBlockDesc × Int) ppi2 =>
      match get_page banks ppi2 with
      | none => st
      | some buf2 =>
        forEachChunks
          (fun (st : List VBlockDesc × Int) c =>
            let st' := (st.1 ++ [parseVB c], st.2 + 1)
            (st', decide (st.2 + 1 < d.nBlocks)))
          (chunksOfF VB_SIZE (PAGE_SIZE / VB_SIZE) buf2) st)
    (blocks, 0)).1

/-- `CMeta::get_file_blocks`: flatten the file's block index into
`VAllBlocks`.  For `FT_INCREMENT` files every page of the file's PageStack
is read as packed `SPatchBlockDescriptorV7` records (reinterpreted into
`VBlockDesc`, record stride 0x35), collected while fewer than
`attribs.nBlocks` have been gathered.  Otherwise each page carries
`SMetaTableDescriptor` records: invalid ones stop the page, sparse ones
append `MAX_BLOCKS` zero blocks, regular ones append the blocks collected
from their own PageStack.  Finally trailing sparse blocks are trimmed
while the count exceeds `attribs.nBlocks`. -/
def get_file_blocks (banks : List Bank) (vfi : VFile) : List VBlockDesc :=
  let ps1 := get_page_stack banks vfi.ppi
  let blocks := ps1.foldl
    (fun (blocks : List VBlockDesc) ppi1 =>
      if !ppi1.valid then blocks
      else
        match get_page banks ppi1 with
        | none => blocks
        | some buf1 =>
          if vfi.type == .FT_INCREMENT then
            forEachChunks
              (fun (blocks : List VBlockDesc) c =>
                let blocks := blocks ++ [parseVB c]
                (blocks, decide ((blocks.length : Int) < vfi.nBlocks)))
              (chunksOfF PATCH_SIZE (PAGE_SIZE / PATCH_SIZE) buf1) blocks
          else
            forEachChunks
              (fun (blocks : List VBlockDesc) c =>
                let d := parseMTD c
                if !d.validMTD then (blocks, false)
                else if d.is_sparse then
                  (blocks ++ List.replicate MTD_MAX_BLOCKS zeroVB, true)
                else (collectFibBlocks banks d blocks, true))
              (chunksOfF MTD_SIZE (PAGE_SIZE / MTD_SIZE) buf1) blocks)
    []
  trimBlocks vfi.nBlocks blocks.length blocks

/-- The per-file statistic fragment of `ExtractContext::process_file`
(`src/processing/ExtractContext.cpp`, lines 172-176): when more blocks than
`attribs.nBlocks` were collected only a warning is logged (`nMissMD` stays
zero), otherwise `nMissMD = attribs.nBlocks - vAllB.size()` in unsigned
64-bit arithmetic. -/
def extMissMD (nB : Int) (len : Nat) : Nat :=
  if len > toUInt64Wrap nB then 0 else toUInt64Wrap (nB - len)

/-! ## FileHeader (`src/Veeam/VBK/FileHeader.hpp`) and CSlot
(`src/Veeam/VBK/CSlot.hpp`) -/

/-- Packed size of `CSlot::BankInfo` (`uint32_t crc; int64_t offset;
uint32_t size;`). -/
def bankInfoSize : Nat := 16

/-- `FileHeader::max_banks` keyed on `slot_fmt`. -/
def fhMaxBanks (slot_fmt : Nat) : Nat :=
  if slot_fmt = 0 then 0xf8
  else if slot_fmt = 5 ∨ slot_fmt = 9 then 0x7f00
  else 0

/-- `FileHeader::slot_size`:
`(((max_banks() * sizeof(BankInfo) & 0xFFFFFFF0) + 120) & 0xFFFFF000) + PAGE_SIZE`. -/
def fhSlotSize (slot_fmt : Nat) : Nat :=
  Nat.land (Nat.land (fhMaxBanks slot_fmt * bankInfoSize) 0xFFFFFFF0 + 120) 0xFFFFF000 +
    PAGE_SIZE

/-- Clearing the low four bits, the `& ~0xF` of the spec's formula. -/
def clearLow4 (x : Nat) : Nat := x - x % 16

/-- Clearing the low twelve bits, the `& ~0xFFF` of the spec's formula. -/
def clearLow12 (x : Nat) : Nat := x - x % 0x1000

/-! ### CSlot acceptance

The slot is a raw byte region; packed field offsets: `crc` at 0,
`has_snapshot` at 4, `SnapshotDescriptor` at 8 (108 bytes), `max_banks` at
116, `allocated_banks` at 120, `bankInfos[]` at 124; `sizeof(CSlot)` is 128
(the struct is `aligned(8)`), so `CSlot::size()` is `128 + 16 * max_banks`. -/

def slotCrc (s : List Nat) : Nat := readLE s 0 4

def slotHasSnapshot (s : List Nat) : Nat := readLE s 4 4

def slotMaxBanks (s : List Nat) : Nat := readLE s 116 4

def slotAllocatedBanks (s : List Nat) : Nat := readLE s 120 4

/-- `CSlot::size()` = `sizeof(CSlot) + max_banks * sizeof(BankInfo)`. -/
def slotSizeBytes (s : List Nat) : Nat := 128 + bankInfoSize * slotMaxBanks s

/-- `CSlot::valid_fast`. -/
def slotValidFast (s : List Nat) : Bool :=
  slotCrc s != 0 && slotHasSnapshot s == 1 &&
    slotMaxBanks s > 0 && slotMaxBanks s ≤ MAX_BANKS &&
    slotAllocatedBanks s ≤ slotMaxBanks s

/-- `CSlot::valid_crc`: `vcrc32(0, &has_snapshot, size()-8) == crc`, i.e. the
CRC runs from byte 4 over `size() - 8` bytes. -/
def slotValidCrc (s : List Nat) : Bool :=
  vcrc32 0 ((s.drop 4).take (slotSizeBytes s - 8)) == slotCrc s

/-- A slot is good for the core (`ScannerV2::check_slot`,
`CMeta::import_slot`) when both `valid_fast()` and `valid_crc()` hold. -/
def slotAccepted (s : List Nat) : Bool := slotValidFast s && slotValidCrc s

/-! ## AES-256-CBC (`src/utils/crypto.cpp`, lines 133-250)

The AES block primitive itself is a CPU intrinsic; it enters the model as
the parameter `blockDec` mapping one 16-byte ciphertext block to its raw
decryption.  Everything around it — the length checks, the CBC chaining,
the PKCS#7 unpadding — is translated from the source. -/

/-- Bytewise xor of two equal-length byte lists. -/
def xorBytes : List Nat → List Nat → List Nat
  | a :: as, b :: bs => (a ^^^ b) :: xorBytes as bs
  | _, _ => []

/-- `pkcs7_unpad_len`: pad byte must be in `[1,16]`, not exceed the length,
and the last `pad` bytes must all equal it. -/
def pkcs7_unpad_len (buf : List Nat) : Except Unit Nat :=
  if buf.length = 0 then .ok 0
  else
    let pad := buf.getD (buf.length - 1) 0
    if pad = 0 ∨ pad > 16 ∨ pad > buf.length then .error ()
    else if ((buf.drop (buf.length - pad)).all fun b => b = pad) then .ok pad
    else .error ()

/-- Split a byte buffer into `cnt` 16-byte cipher blocks (the
`for (off = 0; off < n; off += 16)` walk of `AES256::decrypt`). -/
def cipherChunks : Nat → List Nat → List (List Nat)
  | 0, _ => []
  | n + 1, l => l.take 16 :: cipherChunks n (l.drop 16)

/-- CBC chaining of `AES256::decrypt`: each decrypted block is xored with
the previous ciphertext block (the IV for the first). -/
def cbcBlocks (blockDec : List Nat → List Nat) : List Nat → List (List Nat) → List Nat
  | _, [] => []
  | prev, c :: rest =>
    xorBytes (resizeList (blockDec c) 16 0) (resizeList prev 16 0) ++ cbcBlocks blockDec c rest

/-- The CBC plaintext of the first `n` bytes of `data`, the tail unchanged. -/
def cbcOut (blockDec : List Nat → List Nat) (iv data : List Nat) (n : Nat) : List Nat :=
  cbcBlocks blockDec iv (cipherChunks (n / 16) (data.take n)) ++ data.drop n

/-- `AES256::decrypt(std::vector&, remove_padding, size)`: `n` is the
explicit size or the whole buffer; zero-length input returns at once;
otherwise the length must fit the buffer and be a multiple of 16; the
first `n` bytes are CBC-decrypted in place and, when requested, the
PKCS#7 padding over those `n` bytes is validated and the buffer shrunk. -/
def aesDecrypt (blockDec : List Nat → List Nat) (iv : List Nat) (data : List Nat)
    (removePadding : Bool) (size : Nat) : Except Unit (List Nat) :=
  let n := if size = 0 then data.length else size
  if n = 0 then .ok data
  else if n > data.length then .error ()
  else if n % 16 ≠ 0 then .error ()
  else
    let out := cbcOut blockDec iv data n
    if removePadding then
      match pkcs7_unpad_len (out.take n) with
      | .ok pad => .ok (out.take (n - pad))
      | .error e => .error e
    else .ok out

/-! ## Extract engine, per-block loop
(`src/processing/ExtractContext.cpp`, `process_file`, lines 178-491)

The ambient configuration of one `process_file` call is collected in
`ExtEnv`; the mutable loop state in `ExtState`.  The writer is modelled by
its position and the list of `(position, bytes)` write events; a
`seek(skip, SEEK_CUR)` only moves the position.  External decompressors
and ciphers are function parameters: each receives the bytes the C++ hands
to the library, the capacity of the destination buffer and the previous
contents of that buffer, and returns the library's return value together
with the buffer contents after the call. -/

/-- A row of the external hash table, as used by `process_file`. -/
structure HashEntry where
  offset : Nat
  comp_size : Nat
  orig_size : Nat
  comp_type : Nat
  keyset_id : Nat
  device_index : Nat
deriving DecidableEq, Repr

structure ExtEnv where
  isDiff : Bool
  writer : Bool
  haveVbk : Bool
  devicesEmpty : Bool
  noRead : Bool
  vbkOffset : Nat
  cacheCap : Nat
  bds : List (Nat × BlockDescriptor)
  exHT : Option (Nat → Option HashEntry)
  readAt : Bool → Nat → Nat → Nat → List Nat
  ciphers : Nat → Option (List Nat → Except Unit (List Nat))
  lz4 : List Nat → Nat → List Nat → Int × List Nat
  zlibInf : List Nat → Nat → List Nat → Option (Bool × Int × Nat × List Nat)
  zstdDec : List Nat → Nat → List Nat → Option (Nat × Nat × List Nat)
  md5 : List Nat → Nat

structure ExtState where
  remaining : Int
  writerPos : Nat
  writes : List (Nat × List Nat)
  actualWritten : Nat
  prevPos : Nat
  prevDevice : Nat
  lzBuf : List Nat
  lzBuf2 : List Nat
  cache : List Nat
  usedBds : List Nat
  nOK : Nat
  nMissHT : Nat
  nErrDecomp : Nat
  nErrCRC : Nat
  nReadErr : Nat
  sparse : Nat
deriving DecidableEq, Repr

/-- Lookup in the `BlockDescriptors` map handed to the extract session. -/
def bdsFind (m : List (Nat × BlockDescriptor)) (d : Nat) : Option BlockDescriptor :=
  (m.find? fun e => e.1 == d).map (·.2)

/-- `std::set` insertion for `used_bds`. -/
def insertSet (l : List Nat) (d : Nat) : List Nat :=
  if l.contains d then l else l ++ [d]

/-- `lru_set::contains` promotes a found key to MRU (list front). -/
def lruPromote (l : List Nat) (d : Nat) : List Nat :=
  if l.contains d then d :: l.erase d else l

/-- `lru_set::insert`: promote when present, otherwise evict the LRU tail
when at capacity and push the key to the front. -/
def lruInsert (cap : Nat) (l : List Nat) (d : Nat) : List Nat :=
  if l.contains d then d :: l.erase d
  else if l.length ≥ cap then d :: l.dropLast
  else d :: l

/-- Unsigned 64-bit subtraction `a - b` (the `size_t` arithmetic of
`effective_compSize - sizeof(lz_hdr)`). -/
def sub64 (a b : Nat) : Nat := (a + 2 ^ 64 - b) % 2 ^ 64

/-- The minimal descriptor fabricated when a block is absent from the
`BlockDescriptors` map but an external hash table is available
(`ExtractContext.cpp`, lines 209-219). -/
def fabricatedBD (h : Nat) : BlockDescriptor :=
  ⟨4, 0, 0, 0, 0, h, 0xff, 0, 0, BLOCK_SIZE, 0⟩

/-- End of one loop iteration: a positive `skip_size` advances the writer
(`seek(skip, SEEK_CUR)`) and is deducted from the remaining logical size. -/
def applySkip (env : ExtEnv) (st : ExtState) (skip : Nat) : ExtState :=
  if skip > 0 then
    { st with
      writerPos := if env.writer then st.writerPos + skip else st.writerPos,
      remaining := st.remaining - (skip : Int) }
  else st

/-- A write of `tw` bytes of `out` through the writer, with the
`actual_written` / `remaining_size` bookkeeping that runs with or without
a writer. -/
def writeOut (env : ExtEnv) (st : ExtState) (out : List Nat) (tw : Nat) : ExtState :=
  { st with
    writes := if env.writer then st.writes ++ [(st.writerPos, out.take tw)] else st.writes,
    writerPos := if env.writer then st.writerPos + tw else st.writerPos,
    actualWritten := st.actualWritten + tw,
    remaining := st.remaining - (tw : Int) }

/-- A successful block: write, count it OK and remember its digest in the
session cache. -/
def writeAccept (env : ExtEnv) (st : ExtState) (out : List Nat) (tw : Nat) (key : Nat) :
    ExtState :=
  let st := writeOut env st out tw
  { st with nOK := st.nOK + 1, cache := lruInsert env.cacheCap st.cache key }

/-- The `CT_LZ4` arm of the dispatch (`ExtractContext.cpp`, lines 326-372).
The plaintext starts with the 12-byte `lz_hdr {magic, crc, srcSize}`.
When the header validates, the payload is LZ4-decompressed into a buffer
of `srcSize` bytes, the result is written (before any verification), and
the block is then classified: decompressor return value different from
`srcSize` counts a decompression error, a `vcrc32` of the whole output
buffer different from the header's `crc` counts a CRC error, otherwise the
block is OK.  An invalid header counts a decompression error and skips
the block.  Returns the new state and the `skip_size`. -/
def processLz4 (env : ExtEnv) (digest effCompSize effKeyset : Nat) (st : ExtState) :
    ExtState × Nat :=
  let hdrMagic := readLE st.lzBuf 0 4
  let hdrCrc := readLE st.lzBuf 4 4
  let hdrSrc := readLE st.lzBuf 8 4
  if hdrMagic = 0xF800000F ∧ 0 < hdrSrc ∧ hdrSrc ≤ BLOCK_SIZE then
    let buf2 := resizeList st.lzBuf2 hdrSrc 0
    let compArg := if effKeyset ≠ 0 then sub64 st.lzBuf.length 12 else sub64 effCompSize 12
    let res := env.lz4 ((st.lzBuf.drop 12).take compArg) hdrSrc buf2
    let out := resizeList res.2 hdrSrc 0
    let tw := if st.remaining > 0 ∧ st.remaining < (hdrSrc : Int) then st.remaining.toNat else hdrSrc
    let st := { writeOut env st out tw with lzBuf2 := out }
    let crc := vcrc32 0 out
    if toUInt64Wrap res.1 ≠ hdrSrc then ({ st with nErrDecomp := st.nErrDecomp + 1 }, 0)
    else if crc ≠ hdrCrc then ({ st with nErrCRC := st.nErrCRC + 1 }, 0)
    else ({ st with nOK := st.nOK + 1, cache := lruInsert env.cacheCap st.cache digest }, 0)
  else ({ st with nErrDecomp := st.nErrDecomp + 1 }, BLOCK_SIZE)

/-- The `switch (effective_comp_type)` dispatch (`ExtractContext.cpp`,
lines 313-483), entered with the block bytes in `st.lzBuf`. -/
def processBlockSwitch (env : ExtEnv) (blk : VBlockDesc) (blkDesc : BlockDescriptor)
    (effCT effCS effKS : Nat) (st : ExtState) : Except Unit ExtState :=
  if effCT = 0xff then
    let tw := if st.remaining > 0 ∧ st.remaining < (st.lzBuf.length : Int)
      then st.remaining.toNat else st.lzBuf.length
    .ok (writeAccept env st st.lzBuf tw blkDesc.digest)
  else if effCT = 7 then
    let r := processLz4 env blkDesc.digest effCS effKS st
    .ok (applySkip env r.1 r.2)
  else if effCT = 2 then .error ()
  else if effCT = 3 ∨ effCT = 4 then
    let outSize := min BLOCK_SIZE blkDesc.srcSize
    let buf2 := resizeList st.lzBuf2 outSize 0
    match env.zlibInf st.lzBuf outSize buf2 with
    | none => .ok (applySkip env { st with lzBuf2 := buf2, nErrDecomp := st.nErrDecomp + 1 } BLOCK_SIZE)
    | some (endOk, ret, totalOut, buf) =>
      let buf2 := resizeList buf outSize 0
      let st := { st with lzBuf2 := buf2 }
      if endOk ∧ ret = 1 then
        if env.md5 (buf2.take totalOut) = blkDesc.digest then
          let tw := if st.remaining > 0 ∧ st.remaining < (totalOut : Int)
            then st.remaining.toNat else totalOut
          .ok (writeAccept env st buf2 tw blkDesc.digest)
        else .ok (applySkip env { st with nErrDecomp := st.nErrDecomp + 1 } BLOCK_SIZE)
      else .ok (applySkip env { st with nErrDecomp := st.nErrDecomp + 1 } BLOCK_SIZE)
  else if effCT = 8 ∨ effCT = 9 then
    let outSize := min BLOCK_SIZE (if blkDesc.srcSize ≠ 0 then blkDesc.srcSize else BLOCK_SIZE)
    let buf2 := resizeList st.lzBuf2 outSize 0
    match env.zstdDec st.lzBuf outSize buf2 with
    | none => .ok (applySkip env { st with lzBuf2 := buf2, nErrDecomp := st.nErrDecomp + 1 } BLOCK_SIZE)
    | some (ret, outPos, buf) =>
      let buf2 := resizeList buf outSize 0
      let st := { st with lzBuf2 := buf2 }
      if ret ≠ 0 then .ok (applySkip env { st with nErrDecomp := st.nErrDecomp + 1 } BLOCK_SIZE)
      else if env.md5 (buf2.take outPos) = blkDesc.digest then
        let tw := if st.remaining > 0 ∧ st.remaining < (outPos : Int)
          then st.remaining.toNat else outPos
        .ok (writeAccept env st buf2 tw blkDesc.digest)
      else .ok (applySkip env { st with nErrDecomp := st.nErrDecomp + 1 } BLOCK_SIZE)
  else if effCT = 0 ∧ blk.hash = 0 then
    .ok (applySkip env { st with sparse := st.sparse + 1 } BLOCK_SIZE)
  else .ok (applySkip env st BLOCK_SIZE)

/-- The read-and-decrypt stage (`ExtractContext.cpp`, lines 273-311):
test-only fast paths, the consecutive-read cache, the `read_at` of
`effective_allocSize` bytes and the optional keyset decryption; then the
compression dispatch. -/
def processBlockRead (env : ExtEnv) (blk : VBlockDesc) (blkDesc : BlockDescriptor)
    (pos dev effCT effAS effCS effKS : Nat) (st : ExtState) : Except Unit ExtState :=
  let cacheHit := !env.writer && st.cache.contains blkDesc.digest
  let st := if cacheHit then { st with cache := lruPromote st.cache blkDesc.digest } else st
  if cacheHit || (!env.haveVbk && env.devicesEmpty) then
    .ok (applySkip env { st with nOK := st.nOK + 1 } BLOCK_SIZE)
  else if env.noRead && !env.devicesEmpty then
    .ok (applySkip env { st with nOK := st.nOK + 1 } BLOCK_SIZE)
  else if st.prevPos = 0 ∨ pos ≠ st.prevPos ∨ effAS ≠ st.lzBuf.length ∨
      (env.haveVbk = false ∧ env.devicesEmpty = false ∧ st.prevDevice ≠ dev) then
    let raw := (env.readAt env.haveVbk dev (env.vbkOffset + pos) effAS).take effAS
    let buf1 := raw ++ (resizeList st.lzBuf effAS 0).drop raw.length
    if raw.length ≠ effAS then
      .ok (applySkip env { st with lzBuf := buf1, nReadErr := st.nReadErr + 1 } BLOCK_SIZE)
    else if effKS ≠ 0 then
      let buf1 := resizeList buf1 effCS 0
      match env.ciphers effKS with
      | none => .ok (applySkip env { st with lzBuf := buf1 } BLOCK_SIZE)
      | some ciph =>
        match ciph buf1 with
        | .error e => .error e
        | .ok decd =>
          processBlockSwitch env blk blkDesc effCT effCS effKS
            { st with lzBuf := decd, prevPos := pos, prevDevice := dev }
    else
      processBlockSwitch env blk blkDesc effCT effCS effKS
        { st with lzBuf := buf1, prevPos := pos, prevDevice := dev }
  else processBlockSwitch env blk blkDesc effCT effCS effKS st

/-- The stage after the descriptor has been resolved: the patch seek
(`ExtractContext.cpp`, lines 232-235 — issued only for diff files whose
block satisfies `VBlockDesc::is_patch`), then the effective-parameter
override from the external hash table (lines 249-271). -/
def processBlockResolved (env : ExtEnv) (blk : VBlockDesc) (blkDesc : BlockDescriptor)
    (st : ExtState) : Except Unit ExtState :=
  let st :=
    if env.writer && env.isDiff && blk.is_patch then
      { st with writerPos := blk.vib_offset * BLOCK_SIZE }
    else st
  match env.exHT with
  | some htFind =>
    match htFind blkDesc.digest with
    | some db =>
      let as0 := db.comp_size + (if db.comp_type = 7 then 12 else 0)
      let as1 := if db.keyset_id ≠ 0 then as0 + 0x10 - as0 % 0x10 else as0
      processBlockRead env blk blkDesc db.offset db.device_index db.comp_type as1 as1
        db.keyset_id st
    | none => .ok (applySkip env { st with nMissHT := st.nMissHT + 1 } BLOCK_SIZE)
  | none =>
    processBlockRead env blk blkDesc blkDesc.offset 255 blkDesc.compType blkDesc.allocSize
      blkDesc.compSize blkDesc.keysetID st

/-- One iteration of the per-block loop of `ExtractContext::process_file`:
empty blocks are accounted sparse; otherwise the block is resolved through
the `BlockDescriptors` map (falling back to a fabricated descriptor when
an external hash table exists, and to a miss otherwise) and processed. -/
def processBlock (env : ExtEnv) (blk : VBlockDesc) (st : ExtState) : Except Unit ExtState :=
  if blk.is_empty then
    .ok (applySkip env { st with sparse := st.sparse + 1 } BLOCK_SIZE)
  else
    match bdsFind env.bds blk.hash with
    | some d =>
      processBlockResolved env blk d { st with usedBds := insertSet st.usedBds blk.hash }
    | none =>
      if env.exHT.isSome then processBlockResolved env blk (fabricatedBD blk.hash) st
      else .ok (applySkip env { st with nMissHT := st.nMissHT + 1 } BLOCK_SIZE)

/-! ## Named fragments of `processLz4` (used to state the LZ4 claims) -/

/-- The decompressor's return value inside the `CT_LZ4` arm. -/
def lz4Ret (env : ExtEnv) (effCS effKS : Nat) (st : ExtState) : Int :=
  (env.lz4 ((st.lzBuf.drop 12).take
      (if effKS ≠ 0 then sub64 st.lzBuf.length 12 else sub64 effCS 12))
    (readLE st.lzBuf 8 4) (resizeList st.lzBuf2 (readLE st.lzBuf 8 4) 0)).1

/-- The decompressed output buffer of the `CT_LZ4` arm (`srcSize` bytes). -/
def lz4Out (env : ExtEnv) (effCS effKS : Nat) (st : ExtState) : List Nat :=
  resizeList
    ((env.lz4 ((st.lzBuf.drop 12).take
        (if effKS ≠ 0 then sub64 st.lzBuf.length 12 else sub64 effCS 12))
      (readLE st.lzBuf 8 4) (resizeList st.lzBuf2 (readLE st.lzBuf 8 4) 0)).2)
    (readLE st.lzBuf 8 4) 0

/-- How many of the output bytes the `CT_LZ4` arm writes (capped by the
remaining logical size). -/
def lz4Tw (st : ExtState) : Nat :=
  if st.remaining > 0 ∧ st.remaining < ((readLE st.lzBuf 8 4 : Nat) : Int)
  then st.remaining.toNat else readLE st.lzBuf 8 4

/-- Where the writer stands when a resolved block's bytes are written: the
patch seek target for diff-file patch blocks, the current position
otherwise. -/
def seekTarget (env : ExtEnv) (blk : VBlockDesc) (st : ExtState) : Nat :=
  if env.writer && env.isDiff && blk.is_patch then blk.vib_offset * BLOCK_SIZE
  else st.writerPos

/-! ## Concrete data for the claims -/

/-- Byte `j` of a page-stack table page: next link `(-1,-1)` at offset 0,
self id `(selfPid, 0)` at offset 8, table entry 2 (the slot `calc_idx 0`
selects) holding `(payload, 0)`, every later entry `0xFF`-filled. -/
def tablePageByte (selfPid payload j : Nat) : Nat :=
  if j < 8 then 0xff
  else if j = 8 then selfPid
  else if j < 16 then 0
  else if j = 16 then payload
  else if j < 24 then 0
  else 0xff

/-- C1 bank: page 0 is the file's root table page (payload `(1,0)`); page
`(1,0)` holds one regular `SMetaTableDescriptor` (`ppi (2,0)`,
`block_size BLOCK_SIZE`, `nBlocks 2`) followed by an invalid all-zero one;
page `(2,0)` is the descriptor's own table page (payload `(3,0)`); page
`(3,0)` holds two non-sparse `SFibBlockDescriptorV7` records (`size 1`). -/
def c1BankData : Nat → Nat := fun i =>
  if i < 4096 then 0
  else if i < 8192 then tablePageByte 0 1 (i - 4096)
  else if i < 12288 then
    if i = 8192 then 2 else if i = 8202 then 0x10 else if i = 8208 then 2 else 0
  else if i < 16384 then tablePageByte 2 3 (i - 12288)
  else if i = 16384 then 1 else if i = 16430 then 1 else 0

/-- The `VFile` of the C1 counterexample: an internal FIB whose attribs
promise a single block. -/
def c1Vfi : VFile := ⟨.FT_INT_FIB, ⟨0, 0⟩, 1, 0⟩

/-- Extract environment of the C2 counterexample: a writer session whose
LZ4 library inflates anything to `[1, 2, 3, 4]`. -/
def c2Env : ExtEnv where
  isDiff := false
  writer := true
  haveVbk := true
  devicesEmpty := true
  noRead := false
  vbkOffset := 0
  cacheCap := 4
  bds := []
  exHT := none
  readAt := fun _ _ _ _ => []
  ciphers := fun _ => none
  lz4 := fun _ _ _ => (4, [1, 2, 3, 4])
  zlibInf := fun _ _ _ => none
  zstdDec := fun _ _ _ => none
  md5 := fun _ => 0

/-- Loop state of the C2 counterexample: the block bytes hold a well-formed
`lz_hdr` (`magic` good, `crc = 0`, `srcSize = 4`) and a 4-byte payload. -/
def c2St : ExtState where
  remaining := 100
  writerPos := 0
  writes := []
  actualWritten := 0
  prevPos := 0
  prevDevice := 0
  lzBuf := [0x0F, 0, 0, 0xF8, 0, 0, 0, 0, 4, 0, 0, 0, 9, 9, 9, 9]
  lzBuf2 := []
  cache := []
  usedBds := []
  nOK := 0
  nMissHT := 0
  nErrDecomp := 0
  nErrCRC := 0
  nReadErr := 0
  sparse := 0

/-- A valid datastore record with digest 1, `srcSize` LSB `srcLSB`
(`location 4`, `allocSize 1`, `compType CT_NONE`, `compSize 1`). -/
def bdChunkC3 (srcLSB : Nat) : List Nat :=
  [4] ++ List.replicate 12 0 ++ [1, 0, 0, 0] ++ [0] ++ [1] ++ List.replicate 15 0 ++
    [0xff, 0] ++ [1, 0, 0, 0] ++ [srcLSB, 0, 0, 0] ++ List.replicate 16 0

/-- C4 bank: page 0 is the datastore's root table page (payload `(1,0)`);
record 0 of datastore page `(1,0)` is an invalid record (`location 0`)
with `digest 3`, `allocSize 1` and `compSize 2`; the remaining records are
blank. -/
def c4BankData : Nat → Nat := fun i =>
  if i < 4096 then 0
  else if i < 8192 then tablePageByte 0 1 (i - 4096)
  else if i = 8205 then 1
  else if i = 8210 then 3
  else if i = 8228 then 2
  else 0

/-- The raw bytes of record 0 of the C4 bank's datastore page. -/
def c4Rec0 : List Nat :=
  (List.range 60).map fun j =>
    if j = 13 then 1 else if j = 18 then 3 else if j = 36 then 2 else 0

/-- C4 witness bank: like the C4 bank but record 0 is a valid record
(`location 4`, `allocSize 1`, `digest 5`, `compType CT_NONE`,
`compSize 1`, `srcSize 1`). -/
def c4wBankData : Nat → Nat := fun i =>
  if i < 4096 then 0
  else if i < 8192 then tablePageByte 0 1 (i - 4096)
  else if i = 8192 then 4
  else if i = 8205 then 1
  else if i = 8210 then 5
  else if i = 8226 then 0xff
  else if i = 8228 then 1
  else if i = 8232 then 1
  else 0

/-- The raw bytes of record 0 of the C4 witness bank's datastore page. -/
def c4wRec : List Nat :=
  (List.range 60).map fun j =>
    if j = 0 then 4 else if j = 13 then 1 else if j = 18 then 5 else if j = 34 then 0xff
    else if j = 36 then 1 else if j = 40 then 1 else 0

/-- A 144-byte slot region whose stored crc covers bytes 4..139 (what
`CSlot::valid_crc` checks: `size() - 8` bytes from offset 4, with
`max_banks 1`, `size() = 144`) while bytes 140..143 hold garbage the crc
never sees. -/
def slotC6 : List Nat :=
  [0x8F, 0x0D, 0x96, 0xDF] ++ [1, 0, 0, 0] ++ List.replicate 108 0 ++
    [1, 0, 0, 0] ++ [1, 0, 0, 0] ++ List.replicate 16 0 ++ [0xAA, 0xBB, 0xCC, 0xDD]

/-- Block descriptor of the C7 data: `CT_NONE`, two bytes at offset 0. -/
def c7Bd : BlockDescriptor := ⟨4, 0, 0, 2, 0, 7, 0xff, 0, 2, 2, 0⟩

/-- Extract environment of the C7 data: a diff-file writer session over a
VBK whose `read_at` always yields the two bytes `[5, 5]`. -/
def c7Env : ExtEnv where
  isDiff := true
  writer := true
  haveVbk := true
  devicesEmpty := false
  noRead := false
  vbkOffset := 0
  cacheCap := 4
  bds := [(7, c7Bd)]
  exHT := none
  readAt := fun _ _ _ _ => [5, 5]
  ciphers := fun _ => none
  lz4 := fun _ _ _ => (0, [])
  zlibInf := fun _ _ _ => none
  zstdDec := fun _ _ _ => none
  md5 := fun _ => 0

/-- The C7 counterexample's block: full-size, digest 7, `vib_offset 0` —
not a patch block, so the code issues no seek for it. -/
def c7Blk : VBlockDesc := ⟨BLOCK_SIZE, 0, 7, 0, 0, 0, 0⟩

/-- The C7 witness's block: full-size, digest 7, `vib_offset 3` — a patch
block, seeked to `3 * BLOCK_SIZE`. -/
def c7wBlk : VBlockDesc := ⟨BLOCK_SIZE, 0, 7, 0, 3, 0, 0⟩

/-- Loop state the C7 data starts from: the writer stands at 4096. -/
def c7St : ExtState := ⟨100, 4096, [], 0, 0, 0, [], [], [], [], 0, 0, 0, 0, 0, 0⟩

/-- What `processBlock` makes of the C7 counterexample's block: the two
bytes are written at the writer's current position 4096, not at
`vib_offset * BLOCK_SIZE = 0`. -/
def c7CexSt : ExtState :=
  ⟨98, 4098, [(4096, [5, 5])], 2, 0, 255, [5, 5], [], [7], [7], 1, 0, 0, 0, 0, 0⟩

/-- What `processBlockResolved` makes of the C7 witness's block: the seek
moves the writer to `3 * BLOCK_SIZE` and the two bytes land there. -/
def c7wSt : ExtState :=
  ⟨98, 3145730, [(3145728, [5, 5])], 2, 0, 255, [5, 5], [], [7], [], 1, 0, 0, 0, 0, 0⟩

instance {ε α : Type} [DecidableEq ε] [DecidableEq α] : DecidableEq (Except ε α) := fun x y =>
  match x, y with
  | .ok a, .ok b => if h : a = b then .isTrue (by rw [h]) else .isFalse (by simp [h])
  | .error e, .error f => if h : e = f then .isTrue (by rw [h]) else .isFalse (by simp [h])
  | .ok _, .error _ => .isFalse (by simp)
  | .error _, .ok _ => .isFalse (by simp)

/-! # Claims -/

/-! ## C8 — FileHeader max_banks and slot_size -/

/-- Claim C8 as stated: `max_banks` is 0xF8 / 0x7F00 / 0x7F00 for
`slot_fmt` 0 / 5 / 9, `slot_size` follows the formula with a factor of 24
per bank entry, and `sizeof(CSlot::BankInfo)` is 0x18. -/
def C8Claim : Prop :=
  fhMaxBanks 0 = 0xf8 ∧ fhMaxBanks 5 = 0x7f00 ∧ fhMaxBanks 9 = 0x7f00 ∧
  fhSlotSize 0 = clearLow12 (clearLow4 (fhMaxBanks 0 * 24) + 120) + 0x1000 ∧
  fhSlotSize 5 = clearLow12 (clearLow4 (fhMaxBanks 5 * 24) + 120) + 0x1000 ∧
  fhSlotSize 9 = clearLow12 (clearLow4 (fhMaxBanks 9 * 24) + 120) + 0x1000 ∧
  bankInfoSize = 0x18

/-! ## C9 — AES-256-CBC length check and PKCS#7 unpadding -/

/-- The PKCS#7 well-formedness of a plaintext: the final pad byte lies in
`[1,16]`, does not exceed the length, and the last `p` bytes all equal it. -/
def aesPadOK (l : List Nat) : Prop :=
  let p := l.getD (l.length - 1) 0
  1 ≤ p ∧ p ≤ 16 ∧ p ≤ l.length ∧ ∀ b ∈ l.drop (l.length - p), b = p

/-- Claim C9 as stated: every AES-CBC decryption call errors unless the
input length is a non-zero multiple of 16, and an unpadding call succeeds
only with well-formed PKCS#7 padding on the plaintext. -/
def C9Claim : Prop :=
  ∀ (blockDec : List Nat → List Nat) (iv data out : List Nat) (rp : Bool) (size : Nat),
    aesDecrypt blockDec iv data rp size = .ok out →
      (let n := if size = 0 then data.length else size
       (n ≠ 0 ∧ n % 16 = 0) ∧
       (rp = true → aesPadOK ((cbcOut blockDec iv data n).take n)))

/-! ## C10 — get_page success condition -/

/-- Claim C10 as stated: `get_page(ppi)` succeeds exactly when the bank
index is in range and the bank buffer is strictly longer than
`(page_id + 1) * PAGE_SIZE`, read as plain integer arithmetic. -/
def C10Claim : Prop :=
  ∀ (banks : List Bank) (ppi : PhysPageId),
    (get_page banks ppi).isSome = true ↔
      (0 ≤ ppi.bank_id ∧ ppi.bank_id < (banks.length : Int) ∧
       ((banks.getD ppi.bank_id.toNat ⟨0, fun _ => 0⟩).size : Int) >
         (ppi.page_id + 1) * (PAGE_SIZE : Int))

/-! ## C5 — PageStack finalization invariants -/

/-- Bank contents of the C5 witness: page `(0,0)` of the bank (bank bytes
4096-8191) is the root table page — next link `(-1,-1)` at offset 0,
self id `(0,0)` at offset 8, table entry 2 (bytes 16-23, the slot that
`calc_idx 0` selects) holding `(1,0)`, every later entry `0xFF`-filled. -/
def c5BankData : Nat → Nat := fun i =>
  if i < 4096 then 0
  else if i < 4104 then 0xff
  else if i < 4112 then 0
  else if i = 4112 then 1
  else if i < 4120 then 0
  else 0xff

/-- Claim C5 as stated: for every root and bank contents the finalized
PageStack is non-empty and every entry is a valid `PhysPageId`. -/
def C5Claim : Prop :=
  ∀ (banks : List Bank) (root : PhysPageId),
    get_page_stack banks root ≠ [] ∧ ∀ p ∈ get_page_stack banks root, p.valid = true

/-! ## C6 — CSlot acceptance -/

/-- Claim C6 as stated: an accepted slot's stored crc equals the `vcrc32`
over all bytes of the slot after its first 4, and the `valid_fast` bounds
hold. -/
def C6Claim : Prop :=
  ∀ (s : List Nat), slotAccepted s = true →
    vcrc32 0 (s.drop 4) = slotCrc s ∧
    slotAllocatedBanks s ≤ slotMaxBanks s ∧ slotMaxBanks s ≤ MAX_BANKS ∧
    slotCrc s ≠ 0 ∧ slotHasSnapshot s = 1

/-! ## C3 — datastore duplicate handling -/

/-- Claim C3 as stated, over the per-record step of `read_datastore`: only
non-zero digests enter the map, an identical duplicate changes nothing,
and a later record replaces an earlier one under the same digest only if
the earlier one was invalid. -/
def C3Claim : Prop :=
  ∀ (ig : Bool) (st st' : List (Nat × List Nat) × List DsLog) (c : List Nat),
    processDsChunk ig st c = .ok st' →
      (∀ d, bdFind st.1 d = none → bdFind st'.1 d ≠ none → d ≠ 0) ∧
      (bdFind st.1 (parseBD c).digest = some c → st' = st) ∧
      (∀ old, bdFind st.1 (parseBD c).digest = some old → old ≠ c →
        bdValid (parseBD old) = true → bdFind st'.1 (parseBD c).digest = some old)

/-! ## C4 — datastore map invariants -/

/-- Claim C4 as stated: every value of the map `read_datastore` returns
satisfies `allocSize ≥ compSize`, and has a non-zero digest or is fully
zero. -/
def C4Claim : Prop :=
  ∀ (ig : Bool) (banks : List Bank) (ppi0 : PhysPageId) (m : List (Nat × List Nat))
    (logs : List DsLog), read_datastore ig banks ppi0 = .ok (m, logs) →
    ∀ d c, (d, c) ∈ m →
      (parseBD c).compSize ≤ (parseBD c).allocSize ∧
      ((parseBD c).digest ≠ 0 ∨ c = List.replicate BD_SIZE 0)

/-! ## C1 — block-list length versus attribs.nBlocks -/

/-- Claim C1 as stated: the trimmed block list never exceeds
`attribs.nBlocks`, and a deficit shows up as `nMissMD = N - len`. -/
def C1Claim : Prop :=
  ∀ (banks : List Bank) (vfi : VFile), 0 ≤ vfi.nBlocks →
    ((get_file_blocks banks vfi).length : Int) ≤ vfi.nBlocks ∧
    (((get_file_blocks banks vfi).length : Int) < vfi.nBlocks →
      extMissMD vfi.nBlocks (get_file_blocks banks vfi).length =
        toUInt64Wrap (vfi.nBlocks - ((get_file_blocks banks vfi).length : Int)))

/-! ## C2 — LZ4 block verification -/

/-- Claim C2 as stated, over the `CT_LZ4` arm: every block it writes out
carries the header's crc as the `vcrc32` of the written bytes, and size or
crc mismatches are classified as decompression and crc failures. -/
def C2Claim : Prop :=
  ∀ (env : ExtEnv) (digest effCS effKS : Nat) (st : ExtState),
    (∀ w ∈ (processLz4 env digest effCS effKS st).1.writes,
      w ∈ st.writes ∨ vcrc32 0 w.2 = readLE st.lzBuf 4 4) ∧
    (readLE st.lzBuf 0 4 = 0xF800000F → 0 < readLE st.lzBuf 8 4 →
      readLE st.lzBuf 8 4 ≤ BLOCK_SIZE →
      toUInt64Wrap (lz4Ret env effCS effKS st) ≠ readLE st.lzBuf 8 4 →
      (processLz4 env digest effCS effKS st).1.nErrDecomp = st.nErrDecomp + 1) ∧
    (readLE st.lzBuf 0 4 = 0xF800000F → 0 < readLE st.lzBuf 8 4 →
      readLE st.lzBuf 8 4 ≤ BLOCK_SIZE →
      toUInt64Wrap (lz4Ret env effCS effKS st) = readLE st.lzBuf 8 4 →
      vcrc32 0 (lz4Out env effCS effKS st) ≠ readLE st.lzBuf 4 4 →
      (processLz4 env digest effCS effKS st).1.nErrCRC = st.nErrCRC + 1)

/-! ## C7 — the patch seek -/

/-- Claim C7 as stated: when the session is a writer over a diff file,
every byte range a block's processing writes starts at
`vib_offset * BLOCK_SIZE`. -/
def C7Claim : Prop :=
  ∀ (env : ExtEnv) (blk : VBlockDesc) (st st' : ExtState),
    env.writer = true → env.isDiff = true → processBlock env blk st = .ok st' →
    ∀ w ∈ st'.writes, w ∈ st.writes ∨ w.1 = blk.vib_offset * BLOCK_SIZE

/-! # Theorems -/

theorem vcrc32_pinned_vectors :
    vcrc32 0 [] = 0 ∧
    vcrc32 0 [0] = 0x527d5351 ∧
    vcrc32 0 [0, 0] = 0xf16177d2 ∧
    vcrc32 0 [0, 0, 0] = 0x6064a37a ∧
    vcrc32 0 [0, 0, 0, 0] = 0x48674bc7 ∧
    vcrc32 0 [0x48, 0x65, 0x6c, 0x6c, 0x6f, 0x2c, 0x20, 0x57, 0x6f, 0x72, 0x6c, 0x64, 0x21]
      = 0x4d551068 := by
  decide

/-! ## Generic helper lemmas -/

theorem resizeList_length (l : List α) (n : Nat) (p : α) : (resizeList l n p).length = n := by
  simp only [resizeList, List.length_append, List.length_take, List.length_replicate]
  omega

theorem xorBytes_length (a b : List Nat) : (xorBytes a b).length = min a.length b.length := by
  induction a generalizing b with
  | nil => cases b <;> simp [xorBytes]
  | cons x xs ih =>
    cases b with
    | nil => simp [xorBytes]
    | cons y ys =>
      simp only [xorBytes, List.length_cons, ih]
      omega

theorem cipherChunks_length (n : Nat) (l : List Nat) : (cipherChunks n l).length = n := by
  induction n generalizing l with
  | zero => simp [cipherChunks]
  | succ m ih => simp [cipherChunks, ih]

theorem cbcBlocks_length (f : List Nat → List Nat) :
    ∀ (cs : List (List Nat)) (prev : List Nat), (cbcBlocks f prev cs).length = 16 * cs.length := by
  intro cs
  induction cs with
  | nil => intro prev; simp [cbcBlocks]
  | cons c rest ih =>
    intro prev
    simp only [cbcBlocks, List.length_append, xorBytes_length, resizeList_length, ih,
      List.length_cons]
    omega

theorem head?_dropWhile_false {α : Type} (f : α → Bool) (l : List α) (a : α)
    (h : (l.dropWhile f).head? = some a) : f a = false := by
  induction l with
  | nil => simp [List.dropWhile] at h
  | cons x xs ih =>
    by_cases hx : f x
    · rw [List.dropWhile_cons_of_pos hx] at h
      exact ih h
    · rw [List.dropWhile_cons_of_neg hx] at h
      simp at h
      subst h
      simpa using hx

/-- Claim C8 fails: with `slot_fmt = 9` the code computes
`slot_size = 0x80000` while the claimed 24-byte-per-entry formula gives
`0xBF000`; a packed `BankInfo` occupies 0x10 bytes, not 0x18. -/
theorem C8_counterexample : ¬ C8Claim := by
  intro h
  have h9 := h.2.2.2.2.2.1
  revert h9
  decide

/-- C8 amended: `max_banks` is 0xF8 / 0x7F00 / 0x7F00 for `slot_fmt`
0 / 5 / 9 as claimed, but each packed `BankInfo` occupies 0x10 bytes, so
`slot_size = (((max_banks * 0x10) & ~0xF) + 120) & ~0xFFF + 0x1000`,
giving 0x1000 for `slot_fmt` 0 and 0x80000 for `slot_fmt` 5 and 9. -/
theorem C8_slot_size_table :
    fhMaxBanks 0 = 0xf8 ∧ fhMaxBanks 5 = 0x7f00 ∧ fhMaxBanks 9 = 0x7f00 ∧
    bankInfoSize = 0x10 ∧
    fhSlotSize 0 = 0x1000 ∧ fhSlotSize 5 = 0x80000 ∧ fhSlotSize 9 = 0x80000 ∧
    fhSlotSize 0 = clearLow12 (clearLow4 (fhMaxBanks 0 * bankInfoSize) + 120) + 0x1000 ∧
    fhSlotSize 5 = clearLow12 (clearLow4 (fhMaxBanks 5 * bankInfoSize) + 120) + 0x1000 ∧
    fhSlotSize 9 = clearLow12 (clearLow4 (fhMaxBanks 9 * bankInfoSize) + 120) + 0x1000 := by
  decide

/-- Claim C9 fails on zero-length input: `AES256::decrypt` returns
immediately (no error) when `n == 0`, so a zero-length call with
unpadding requested succeeds although the length is not a non-zero
multiple of 16. -/
theorem C9_counterexample : ¬ C9Claim := by
  intro h
  exact ((h (fun b => b) [] [] [] true 0 (by decide)).1.1) rfl

theorem pkcs7_unpad_len_ok (l : List Nat) (p : Nat) (h : pkcs7_unpad_len l = .ok p)
    (hl : l.length ≠ 0) :
    p = l.getD (l.length - 1) 0 ∧
      1 ≤ p ∧ p ≤ 16 ∧ p ≤ l.length ∧ ∀ b ∈ l.drop (l.length - p), b = p := by
  unfold pkcs7_unpad_len at h
  rw [if_neg hl] at h
  by_cases hc : l.getD (l.length - 1) 0 = 0 ∨ l.getD (l.length - 1) 0 > 16 ∨
      l.getD (l.length - 1) 0 > l.length
  · rw [if_pos hc] at h
    exact absurd h (by simp)
  · rw [if_neg hc] at h
    by_cases ha : (l.drop (l.length - l.getD (l.length - 1) 0)).all
        fun b => b = l.getD (l.length - 1) 0
    · rw [if_pos ha] at h
      have hp : p = l.getD (l.length - 1) 0 := by
        cases h
        rfl
      push_neg at hc
      subst hp
      refine ⟨rfl, by omega, by omega, by omega, ?_⟩
      intro b hb
      have := List.all_eq_true.mp ha b hb
      simpa using this
    · rw [if_neg ha] at h
      exact absurd h (by simp)

/-- C9 amended: a zero-length input (n = 0) is accepted as a no-op rather
than raising an error; apart from that the claim holds — a successful call
has `n % 16 = 0` and `n` within the buffer, and when unpadding was
requested on a positive length, the plaintext carries well-formed PKCS#7
padding. -/
theorem C9_aes_decrypt_contract (blockDec : List Nat → List Nat) (iv data out : List Nat)
    (rp : Bool) (size n : Nat) (hn : n = if size = 0 then data.length else size)
    (h : aesDecrypt blockDec iv data rp size = .ok out) :
    n % 16 = 0 ∧ n ≤ data.length ∧ (n = 0 → out = data) ∧
      (rp = true → 0 < n → aesPadOK ((cbcOut blockDec iv data n).take n)) := by
  unfold aesDecrypt at h
  rw [← hn] at h
  by_cases h0 : n = 0
  · subst h0
    simp only [if_pos rfl] at h
    exact ⟨by omega, by omega, fun _ => by cases h; rfl, fun _ hpos => absurd hpos (by omega)⟩
  · rw [if_neg h0] at h
    by_cases hlen : n > data.length
    · rw [if_pos hlen] at h
      exact absurd h (by simp)
    · rw [if_neg hlen] at h
      by_cases hmod : n % 16 ≠ 0
      · rw [if_pos hmod] at h
        exact absurd h (by simp)
      · rw [if_neg hmod] at h
        push_neg at hmod
        refine ⟨hmod, by omega, fun hz => absurd hz h0, fun hrp hpos => ?_⟩
        rw [hrp] at h
        simp only [if_pos rfl] at h
        set pt := (cbcOut blockDec iv data n).take n with hpt
        have hptlen : pt.length = n := by
          have h16 : 16 * (n / 16) = n := by omega
          simp only [hpt, cbcOut, List.length_take, List.length_append, cbcBlocks_length,
            cipherChunks_length, List.length_drop]
          omega
        cases hfind : pkcs7_unpad_len pt with
        | error e => rw [hfind] at h; exact absurd h (by simp)
        | ok pad =>
          obtain ⟨hpe, h1, h2, h3, h4⟩ := pkcs7_unpad_len_ok pt pad hfind (by omega)
          simp only [aesPadOK, ← hpe]
          exact ⟨h1, h2, h3, h4⟩

/-- Witness for C9: a single PKCS#7-full-padding block decrypts to the
empty plaintext and the contract holds at `n = 16`. -/
theorem C9_witness :
    16 % 16 = 0 ∧ 16 ≤ (List.replicate 16 16 : List Nat).length ∧
      (16 = 0 → ([] : List Nat) = List.replicate 16 16) ∧
      (true = true → 0 < 16 →
        aesPadOK ((cbcOut (fun _ => List.replicate 16 16) (List.replicate 16 0)
          (List.replicate 16 16) 16).take 16)) :=
  C9_aes_decrypt_contract (fun _ => List.replicate 16 16) (List.replicate 16 0)
    (List.replicate 16 16) [] true 0 16 (by decide) (by decide)

/-- Claim C10 fails for `page_id < -1`: with `page_id = -2` the product
`(page_id + 1) * PAGE_SIZE` is negative, so the claimed condition holds
for any non-empty bank, but the code converts `page_id + 1` to `size_t`
first, producing an astronomically large offset and failing the lookup. -/
theorem C10_counterexample : ¬ C10Claim := by
  intro h
  exact absurd ((h [⟨1, fun _ => 0⟩] ⟨-2, 0⟩).mpr (by decide)) (by decide)

/-- C10 amended: the characterization holds once `page_id ≥ -1` (so that
the `size_t` conversion of `page_id + 1` is value-preserving); the
`int32_t` fields and a sane bank count bound the casts.  In particular
success indeed requires only `size > (page_id+1)*PAGE_SIZE`, not the
whole page to be present. -/
theorem C10_get_page_characterization (banks : List Bank) (ppi : PhysPageId)
    (hp1 : -1 ≤ ppi.page_id) (hp2 : ppi.page_id < 2 ^ 31)
    (hb1 : -2 ^ 31 ≤ ppi.bank_id) (hb2 : ppi.bank_id < 2 ^ 31)
    (hlen : (banks.length : Int) ≤ 2 ^ 31) :
    (get_page banks ppi).isSome = true ↔
      (0 ≤ ppi.bank_id ∧ ppi.bank_id < (banks.length : Int) ∧
       ((banks.getD ppi.bank_id.toNat ⟨0, fun _ => 0⟩).size : Int) >
         (ppi.page_id + 1) * (PAGE_SIZE : Int)) := by
  unfold get_page toUInt32Wrap toUInt64Wrap PAGE_SIZE
  rcases Int.lt_or_le ppi.bank_id 0 with hneg | hpos
  · -- negative bank id: the uint32 cast lands at 2^32 + bank_id ≥ 2^31 ≥ banks.length
    have hcast : (ppi.bank_id % (2 : Int) ^ 32).toNat = (ppi.bank_id + 2 ^ 32).toNat := by
      have : ppi.bank_id % (2 : Int) ^ 32 = ppi.bank_id + 2 ^ 32 := by
        omega
      rw [this]
    rw [hcast]
    have hbig : ¬ ((ppi.bank_id + 2 ^ 32).toNat < banks.length) := by omega
    rw [if_neg hbig]
    simp only [Option.isSome_none]
    constructor
    · intro hfalse
      exact absurd hfalse (by simp)
    · intro hcl
      exact absurd hcl.1 (by omega)
  · -- non-negative bank id: the cast is the identity
    have hcast : (ppi.bank_id % (2 : Int) ^ 32).toNat = ppi.bank_id.toNat := by
      have : ppi.bank_id % (2 : Int) ^ 32 = ppi.bank_id := by omega
      rw [this]
    have hoffcast : ((ppi.page_id + 1) % (2 : Int) ^ 64).toNat = (ppi.page_id + 1).toNat := by
      have : (ppi.page_id + 1) % (2 : Int) ^ 64 = ppi.page_id + 1 := by omega
      rw [this]
    rw [hcast, hoffcast]
    have hsmall : (ppi.page_id + 1).toNat * 4096 % 2 ^ 64 = (ppi.page_id + 1).toNat * 4096 := by
      apply Nat.mod_eq_of_lt
      omega
    rw [hsmall]
    by_cases hidx : ppi.bank_id.toNat < banks.length
    · rw [if_pos hidx]
      by_cases hshort : (banks.getD ppi.bank_id.toNat ⟨0, fun _ => 0⟩).size ≤
          (ppi.page_id + 1).toNat * 4096
      · rw [if_pos hshort]
        simp only [Option.isSome_none]
        constructor
        · intro hfalse
          exact absurd hfalse (by simp)
        · intro hcl
          have := hcl.2.2
          omega
      · rw [if_neg hshort]
        simp only [Option.isSome_some, true_iff]
        refine ⟨hpos, by omega, by omega⟩
    · rw [if_neg hidx]
      simp only [Option.isSome_none]
      constructor
      · intro hfalse
        exact absurd hfalse (by simp)
      · intro hcl
        have := hcl.2.1
        omega

/-- Witness for C10: a bank holding only the first byte of page 0 (4097
bytes in total) still serves page `(0,0)`. -/
theorem C10_witness :
    ((get_page [⟨4097, fun _ => 7⟩] ⟨0, 0⟩).isSome = true ↔
      (0 ≤ (PhysPageId.mk 0 0).bank_id ∧
       (PhysPageId.mk 0 0).bank_id < (([⟨4097, fun _ => 7⟩] : List Bank).length : Int) ∧
       ((([⟨4097, fun _ => 7⟩] : List Bank).getD
           (PhysPageId.mk 0 0).bank_id.toNat ⟨0, fun _ => 0⟩).size : Int) >
         ((PhysPageId.mk 0 0).page_id + 1) * (PAGE_SIZE : Int))) ∧
    (get_page [⟨4097, fun _ => 7⟩] ⟨0, 0⟩).isSome = true :=
  ⟨C10_get_page_characterization [⟨4097, fun _ => 7⟩] ⟨0, 0⟩ (by decide) (by decide)
      (by decide) (by decide) (by norm_num),
   by decide⟩

/-- Claim C5 fails: with no loaded banks the root page cannot be fetched
and the finalized list is empty. -/
theorem C5_counterexample : ¬ C5Claim := by
  intro h
  exact (h [] ⟨0, 0⟩).1 (by decide)

/-- The trailing trim of `CPageStack::finalize` leaves no invalid entry at
the end of the list. -/
theorem finalizeStack_getLast_valid (pages : List (Nat → Nat)) (p : PhysPageId)
    (h : (finalizeStack pages).getLast? = some p) : p.valid = true := by
  unfold finalizeStack trimTrailingInvalid at h
  rw [List.getLast?_reverse] at h
  have := head?_dropWhile_false (fun q => !q.valid) _ p h
  simpa using this

/-- C5 amended: the finalized page stack may be empty (unreadable root,
self-id mismatch, or all entries invalid); when it is non-empty, the
trailing trim of `CPageStack::finalize` guarantees that its last entry is
a valid `PhysPageId` (interior entries may still be invalid). -/
theorem C5_last_entry_valid (banks : List Bank) (root p : PhysPageId)
    (h : (get_page_stack banks root).getLast? = some p) : p.valid = true := by
  unfold get_page_stack at h
  exact finalizeStack_getLast_valid _ p h

set_option maxHeartbeats 4000000 in
/-- Witness for C5: a one-bank container whose root page lists the single
payload page `(1,0)`; the last (only) finalized entry is valid. -/
theorem C5_witness : PhysPageId.valid ⟨1, 0⟩ = true :=
  C5_last_entry_valid [⟨8192, c5BankData⟩] ⟨0, 0⟩ ⟨1, 0⟩ (by decide)

/-- Claim C6 fails: `CSlot::valid_crc` runs the crc over `size() - 8` bytes
from offset 4 — bytes `[4, size()-4)` — not over everything after the
first 4 bytes, so `slotC6`, whose last 4 bytes the crc never covers, is
accepted although the crc over all bytes past the first 4 disagrees. -/
theorem C6_counterexample : ¬ C6Claim := by
  intro h
  exact absurd (h slotC6 (by decide)).1 (by decide)

/-- C6 amended: an accepted slot satisfies the `valid_fast` bounds exactly
as claimed (crc nonzero, `has_snapshot = 1`,
`allocated_banks ≤ max_banks ≤ MAX_BANKS` with `0 < max_banks`), but the
stored crc covers only the `size() - 8` bytes `[4, size()-4)` of the
slot, not everything after the first 4 bytes. -/
theorem C6_slot_accept_contract (s : List Nat) (h : slotAccepted s = true) :
    vcrc32 0 ((s.drop 4).take (slotSizeBytes s - 8)) = slotCrc s ∧
    slotCrc s ≠ 0 ∧ slotHasSnapshot s = 1 ∧ 0 < slotMaxBanks s ∧
    slotMaxBanks s ≤ MAX_BANKS ∧ slotAllocatedBanks s ≤ slotMaxBanks s := by
  unfold slotAccepted slotValidFast slotValidCrc at h
  simp only [Bool.and_eq_true, bne_iff_ne, beq_iff_eq, decide_eq_true_eq] at h
  obtain ⟨⟨⟨⟨⟨hcrc, hsnap⟩, hmb⟩, hle⟩, hal⟩, hvc⟩ := h
  exact ⟨hvc, hcrc, hsnap, hmb, hle, hal⟩

/-- Witness for C6: the contract evaluated on the accepted slot `slotC6`. -/
theorem C6_witness :
    vcrc32 0 ((slotC6.drop 4).take (slotSizeBytes slotC6 - 8)) = slotCrc slotC6 ∧
    slotCrc slotC6 ≠ 0 ∧ slotHasSnapshot slotC6 = 1 ∧ 0 < slotMaxBanks slotC6 ∧
    slotMaxBanks slotC6 ≤ MAX_BANKS ∧ slotAllocatedBanks slotC6 ≤ slotMaxBanks slotC6 :=
  C6_slot_accept_contract slotC6 (by decide)

/-- Claim C3 fails: a later *valid* record under an already-bound digest
always replaces the earlier binding (the code logs the conflict and then
unconditionally assigns), even when the earlier record was itself valid. -/
theorem C3_counterexample : ¬ C3Claim := by
  intro h
  have h3 := (h false ([(1, bdChunkC3 1)], [])
    ([(1, bdChunkC3 2)], [.dupBD (bdChunkC3 1) (bdChunkC3 2)]) (bdChunkC3 2)
    (by decide)).2.2 (bdChunkC3 1) (by decide) (by decide) (by decide)
  exact absurd h3 (by decide)

theorem bdFind_bdInsert_self (m : List (Nat × List Nat)) (d : Nat) (c : List Nat) :
    bdFind (bdInsert m d c) d = some c := by
  induction m with
  | nil => simp [bdInsert, bdFind, List.find?]
  | cons e rest ih =>
    unfold bdInsert
    by_cases he : (e.1 == d) = true
    · rw [if_pos he]
      simp [bdFind, List.find?]
    · rw [if_neg he]
      unfold bdFind at ih ⊢
      rw [List.find?]
      rw [Bool.not_eq_true] at he
      rw [he]
      exact ih

/-- C3 amended: the exact duplicate semantics of the per-record step —
empty records change nothing; a later valid record with non-zero digest
*always* ends up bound (replacing any earlier record, valid or not),
logging the conflict when the earlier bytes differ and staying silent when
they are identical; a later invalid record never replaces an existing
binding. -/
theorem C3_dup_semantics (ig : Bool) (st st' : List (Nat × List Nat) × List DsLog)
    (c : List Nat) (h : processDsChunk ig st c = .ok st') :
    (emptyChunk c = true → st' = st) ∧
    (emptyChunk c = false → bdValid (parseBD c) = true → (parseBD c).digest ≠ 0 →
      bdFind st'.1 (parseBD c).digest = some c ∧
      (∀ old, bdFind st.1 (parseBD c).digest = some old → old ≠ c →
        st'.2 = st.2 ++ [.dupBD old c]) ∧
      (bdFind st.1 (parseBD c).digest = some c → st'.2 = st.2)) ∧
    (emptyChunk c = false → bdValid (parseBD c) = false →
      ∀ old, bdFind st.1 (parseBD c).digest = some old →
        bdFind st'.1 (parseBD c).digest = some old) := by
  unfold processDsChunk at h
  by_cases hemp : emptyChunk c = true
  · rw [if_pos hemp] at h
    injection h with h
    subst h
    exact ⟨fun _ => rfl, fun hne => absurd hemp (by rw [hne]; decide),
      fun hne => absurd hemp (by rw [hne]; decide)⟩
  · rw [if_neg hemp] at h
    by_cases hval : bdValid (parseBD c) = true
    · rw [if_pos hval] at h
      by_cases hdig : (parseBD c).digest ≠ 0
      · rw [if_pos hdig] at h
        injection h with h
        subst h
        refine ⟨fun ht => absurd ht hemp, fun _ _ _ => ?_,
          fun _ hv2 => absurd hval (by rw [hv2]; decide)⟩
        refine ⟨bdFind_bdInsert_self st.1 (parseBD c).digest c, ?_, ?_⟩
        · intro old hfind hne2
          dsimp only
          rw [hfind]
          exact if_pos hne2
        · intro hfc
          dsimp only
          rw [hfc]
          exact if_neg fun hcc => hcc rfl
      · rw [if_neg hdig] at h
        injection h with h
        subst h
        exact ⟨fun ht => absurd ht hemp, fun _ _ hd => absurd hd hdig,
          fun _ hv2 => absurd hval (by rw [hv2]; decide)⟩
    · rw [if_neg hval] at h
      cases hig : ig with
      | false =>
        rw [hig] at h
        exact absurd h (by simp)
      | true =>
        rw [hig] at h
        injection h with h
        subst h
        refine ⟨fun ht => absurd ht hemp, fun _ hv2 => absurd hv2 (by
          rw [Bool.not_eq_true] at hval
          rw [hval]
          decide), fun _ _ old hfind => ?_⟩
        dsimp only
        split
        · next hcond =>
          rw [hfind] at hcond
          exact absurd hcond.2 (by simp)
        · exact hfind

/-- Witness for C3: the duplicate semantics evaluated on two conflicting
valid records under digest 1. -/
theorem C3_witness :
    (emptyChunk (bdChunkC3 2) = true →
      (([(1, bdChunkC3 2)], [DsLog.dupBD (bdChunkC3 1) (bdChunkC3 2)]) :
          List (Nat × List Nat) × List DsLog) = ([(1, bdChunkC3 1)], [])) ∧
    (emptyChunk (bdChunkC3 2) = false → bdValid (parseBD (bdChunkC3 2)) = true →
      (parseBD (bdChunkC3 2)).digest ≠ 0 →
      bdFind [(1, bdChunkC3 2)] (parseBD (bdChunkC3 2)).digest = some (bdChunkC3 2) ∧
      (∀ old, bdFind [(1, bdChunkC3 1)] (parseBD (bdChunkC3 2)).digest = some old →
        old ≠ bdChunkC3 2 →
        [DsLog.dupBD (bdChunkC3 1) (bdChunkC3 2)] = [] ++ [.dupBD old (bdChunkC3 2)]) ∧
      (bdFind [(1, bdChunkC3 1)] (parseBD (bdChunkC3 2)).digest = some (bdChunkC3 2) →
        [DsLog.dupBD (bdChunkC3 1) (bdChunkC3 2)] = [])) ∧
    (emptyChunk (bdChunkC3 2) = false → bdValid (parseBD (bdChunkC3 2)) = false →
      ∀ old, bdFind [(1, bdChunkC3 1)] (parseBD (bdChunkC3 2)).digest = some old →
        bdFind [(1, bdChunkC3 2)] (parseBD (bdChunkC3 2)).digest = some old) :=
  C3_dup_semantics false ([(1, bdChunkC3 1)], [])
    ([(1, bdChunkC3 2)], [.dupBD (bdChunkC3 1) (bdChunkC3 2)]) (bdChunkC3 2) (by decide)

/-- Claim C4 fails: with `ignore_errors` set, an *invalid* record with
non-zero digest is salvaged into the map as-is, and such a record can
carry `allocSize < compSize` — the C4 bank's record 0 has `allocSize 1`,
`compSize 2` and lands in the map under digest 3. -/
theorem C4_counterexample : ¬ C4Claim := by
  intro h
  exact absurd ((h true [⟨12288, c4BankData⟩] ⟨0, 0⟩ [(3, c4Rec0)] [.invalidBD c4Rec0]
    (by decide)) 3 c4Rec0 (by decide)).1 (by decide)

theorem foldlM_except_inv {σ α : Type} (P : σ → Prop) (f : σ → α → Except Unit σ)
    (hf : ∀ s a s', P s → f s a = .ok s' → P s') :
    ∀ (l : List α) (s s' : σ), P s → l.foldlM f s = .ok s' → P s' := by
  intro l
  induction l with
  | nil =>
    intro s s' hP h
    injection h with h
    subst h
    exact hP
  | cons a as ih =>
    intro s s' hP h
    cases hfa : f s a with
    | error e =>
      rw [List.foldlM_cons, hfa] at h
      exact Except.noConfusion h
    | ok s1 =>
      rw [List.foldlM_cons, hfa] at h
      exact ih s1 s' (hf s a s1 hP hfa) h

theorem mem_bdInsert (m : List (Nat × List Nat)) (d0 : Nat) (c0 : List Nat)
    (d : Nat) (c : List Nat) (h : (d, c) ∈ bdInsert m d0 c0) :
    (d, c) ∈ m ∨ (d = d0 ∧ c = c0) := by
  induction m with
  | nil =>
    simp only [bdInsert, List.mem_singleton, Prod.mk.injEq] at h
    exact Or.inr h
  | cons e rest ih =>
    unfold bdInsert at h
    by_cases he : (e.1 == d0) = true
    · rw [if_pos he] at h
      rcases List.mem_cons.mp h with h1 | h2
      · rw [Prod.mk.injEq] at h1
        exact Or.inr h1
      · exact Or.inl (List.mem_cons_of_mem e h2)
    · rw [if_neg he] at h
      rcases List.mem_cons.mp h with h1 | h2
      · exact Or.inl (h1 ▸ List.mem_cons_self e rest)
      · rcases ih h2 with h3 | h3
        · exact Or.inl (List.mem_cons_of_mem e h3)
        · exact Or.inr h3

/-- What the per-record step can add to the map: any new binding carries
the record's own non-zero digest as its key, is not blank, and — when
`ignore_errors` is off — passed `BlockDescriptor::valid`. -/
theorem processDsChunk_mem (ig : Bool) (st st' : List (Nat × List Nat) × List DsLog)
    (c : List Nat) (h : processDsChunk ig st c = .ok st')
    (d : Nat) (v : List Nat) (hm : (d, v) ∈ st'.1) :
    (d, v) ∈ st.1 ∨
      (v = c ∧ (parseBD c).digest = d ∧ d ≠ 0 ∧ emptyChunk c = false ∧
        (ig = false → bdValid (parseBD c) = true)) := by
  unfold processDsChunk at h
  by_cases hemp : emptyChunk c = true
  · rw [if_pos hemp] at h
    injection h with h
    subst h
    exact Or.inl hm
  · rw [if_neg hemp] at h
    rw [Bool.not_eq_true] at hemp
    by_cases hval : bdValid (parseBD c) = true
    · rw [if_pos hval] at h
      by_cases hdig : (parseBD c).digest ≠ 0
      · rw [if_pos hdig] at h
        injection h with h
        subst h
        rcases mem_bdInsert st.1 (parseBD c).digest c d v hm with h1 | h1
        · exact Or.inl h1
        · exact Or.inr ⟨h1.2, h1.1.symm, h1.1 ▸ hdig, hemp, fun _ => hval⟩
      · rw [if_neg hdig] at h
        injection h with h
        subst h
        exact Or.inl hm
    · rw [if_neg hval] at h
      cases hig : ig with
      | false =>
        rw [hig] at h
        exact absurd h (by simp)
      | true =>
        rw [hig] at h
        injection h with h
        subst h
        dsimp only at hm
        rcases hcond : decide ((parseBD c).digest ≠ 0 ∧ bdFind st.1 (parseBD c).digest = none)
          with - | -
        · rw [if_neg (of_decide_eq_false hcond)] at hm
          exact Or.inl hm
        · have hcp := of_decide_eq_true hcond
          rw [if_pos hcp] at hm
          rcases mem_bdInsert st.1 (parseBD c).digest c d v hm with h1 | h1
          · exact Or.inl h1
          · exact Or.inr ⟨h1.2, h1.1.symm, h1.1 ▸ hcp.1, hemp,
              fun hf => Bool.noConfusion hf⟩

/-- C4 amended: every binding `(d, c)` of the returned map has
`parseBD c` carrying `d` as its non-zero digest and `c` not blank; the
`allocSize ≥ compSize` bound (via `BlockDescriptor::valid`) is guaranteed
only when `ignore_errors` is off — with it on, salvaged invalid records
can violate it. -/
theorem C4_map_invariant (ig : Bool) (banks : List Bank) (ppi0 : PhysPageId)
    (m : List (Nat × List Nat)) (logs : List DsLog)
    (h : read_datastore ig banks ppi0 = .ok (m, logs)) :
    ∀ d c, (d, c) ∈ m → (parseBD c).digest = d ∧ d ≠ 0 ∧ emptyChunk c = false ∧
      (ig = false → bdValid (parseBD c) = true ∧
        (parseBD c).compSize ≤ (parseBD c).allocSize) := by
  unfold read_datastore at h
  have hchunk : ∀ (t : List (Nat × List Nat) × List DsLog) (ch : List Nat) t',
      (∀ d v, (d, v) ∈ t.1 → (parseBD v).digest = d ∧ d ≠ 0 ∧ emptyChunk v = false ∧
        (ig = false → bdValid (parseBD v) = true)) →
      processDsChunk ig t ch = .ok t' →
      (∀ d v, (d, v) ∈ t'.1 → (parseBD v).digest = d ∧ d ≠ 0 ∧ emptyChunk v = false ∧
        (ig = false → bdValid (parseBD v) = true)) := by
    intro t ch t' hPt hh d v hmem
    rcases processDsChunk_mem ig t t' ch hh d v hmem with h1 | h1
    · exact hPt d v h1
    · obtain ⟨hvc, hd, hdz, hne, hval2⟩ := h1
      subst hvc
      exact ⟨hd, hdz, hne, hval2⟩
  have hpage : ∀ (s : List (Nat × List Nat) × List DsLog) (ppi : PhysPageId) s',
      (∀ d v, (d, v) ∈ s.1 → (parseBD v).digest = d ∧ d ≠ 0 ∧ emptyChunk v = false ∧
        (ig = false → bdValid (parseBD v) = true)) →
      (match get_page banks ppi with
        | some page =>
          (chunksOfF BD_SIZE (PAGE_SIZE / BD_SIZE) page).foldlM (processDsChunk ig) s
        | none =>
          if ig then Except.ok (s.1, s.2 ++ [DsLog.pageFail ppi])
          else Except.error ()) = Except.ok s' →
      (∀ d v, (d, v) ∈ s'.1 → (parseBD v).digest = d ∧ d ≠ 0 ∧ emptyChunk v = false ∧
        (ig = false → bdValid (parseBD v) = true)) := by
    intro s ppi s' hPs hh
    cases hpg : get_page banks ppi with
    | some page =>
      rw [hpg] at hh
      exact foldlM_except_inv _ (processDsChunk ig)
        (fun t ch t' hPt hstep => hchunk t ch t' hPt hstep)
        (chunksOfF BD_SIZE (PAGE_SIZE / BD_SIZE) page) s s' hPs hh
    | none =>
      rw [hpg] at hh
      cases hig : ig with
      | false =>
        rw [hig] at hh
        exact absurd hh (by simp)
      | true =>
        rw [hig] at hh
        injection hh with hh
        subst hh
        intro d v hv
        have hres := hPs d v hv
        rw [hig] at hres
        exact hres
  intro d c hmem
  have hfull := foldlM_except_inv _ _ hpage (get_page_stack banks ppi0) ([], []) (m, logs)
    (by intro d v hv; exact absurd hv (by simp)) h d c hmem
  refine ⟨hfull.1, hfull.2.1, hfull.2.2.1, fun hig => ⟨hfull.2.2.2 hig, ?_⟩⟩
  have hv := hfull.2.2.2 hig
  unfold bdValid at hv
  simp only [Bool.and_eq_true, decide_eq_true_eq, bne_iff_ne, beq_iff_eq] at hv
  exact hv.1.2

/-- Witness for C4: the invariant evaluated on a run (with
`ignore_errors` off) over a bank holding one valid record with digest 5. -/
theorem C4_witness :
    (parseBD c4wRec).digest = 5 ∧ 5 ≠ 0 ∧ emptyChunk c4wRec = false ∧
      (false = false → bdValid (parseBD c4wRec) = true ∧
        (parseBD c4wRec).compSize ≤ (parseBD c4wRec).allocSize) :=
  C4_map_invariant false [⟨12288, c4wBankData⟩] ⟨0, 0⟩ [(5, c4wRec)] [] (by decide) 5 c4wRec
    (by decide)

/-- Claim C1 fails: nothing caps the collected list at `attribs.nBlocks` —
the trailing trim only pops *sparse* blocks — so a meta-table descriptor
promising 2 blocks inside a file whose attribs promise 1 yields a list of
length 2 ending in a non-sparse block. -/
theorem C1_counterexample : ¬ C1Claim := by
  intro h
  exact absurd (h [⟨20480, c1BankData⟩] c1Vfi (by decide)).1 (by decide)

theorem trimBlocks_post (nB : Int) :
    ∀ (f : Nat) (l : List VBlockDesc), l.length ≤ f →
      ¬ ((trimBlocks nB f l).length > toUInt64Wrap nB ∧
        (((trimBlocks nB f l).getLast?.map VBlockDesc.is_sparse).getD false) = true) := by
  intro f
  induction f with
  | zero =>
    intro l hl
    have hnil : l = [] := List.eq_nil_of_length_eq_zero (Nat.le_zero.mp hl)
    subst hnil
    rintro ⟨h1, -⟩
    simp only [trimBlocks, List.length_nil] at h1
    omega
  | succ f ih =>
    intro l hl
    unfold trimBlocks
    split
    · next hcond =>
      apply ih
      have h0 : 0 < l.length := hcond.1
      simp only [List.length_dropLast]
      omega
    · next hcond =>
      rintro ⟨h1, h2⟩
      exact hcond ⟨by omega, h1, h2⟩

/-- C1 amended: the final list satisfies the trim loop's fixpoint — it
cannot both exceed `attribs.nBlocks` and end in a sparse block, but it
*can* exceed `attribs.nBlocks` (no capping happens); `nMissMD` is
`N - len` (in unsigned arithmetic) whenever `len ≤ N`, and 0 when the
list is longer than `N`. -/
theorem C1_blocks_postcondition (banks : List Bank) (vfi : VFile) :
    ¬ ((get_file_blocks banks vfi).length > toUInt64Wrap vfi.nBlocks ∧
        (((get_file_blocks banks vfi).getLast?.map VBlockDesc.is_sparse).getD false) = true) ∧
    ((get_file_blocks banks vfi).length ≤ toUInt64Wrap vfi.nBlocks →
      extMissMD vfi.nBlocks (get_file_blocks banks vfi).length =
        toUInt64Wrap (vfi.nBlocks - ((get_file_blocks banks vfi).length : Int))) ∧
    ((get_file_blocks banks vfi).length > toUInt64Wrap vfi.nBlocks →
      extMissMD vfi.nBlocks (get_file_blocks banks vfi).length = 0) := by
  obtain ⟨l, hl⟩ : ∃ l, get_file_blocks banks vfi = trimBlocks vfi.nBlocks l.length l :=
    ⟨_, rfl⟩
  rw [hl]
  refine ⟨trimBlocks_post vfi.nBlocks l.length l le_rfl, ?_, ?_⟩
  · intro hle
    unfold extMissMD
    rw [if_neg (by omega)]
  · intro hgt
    unfold extMissMD
    rw [if_pos hgt]

/-- Claim C2 fails: the `CT_LZ4` arm writes the decompressed buffer *before*
verifying it, so a block whose recomputed crc disagrees with the header is
still written — `c2St` carries header crc 0 while the written bytes
`[1, 2, 3, 4]` hash to `0x29308CF4`. -/
theorem C2_counterexample : ¬ C2Claim := by
  intro h
  have hw := (h c2Env 1 16 0 c2St).1 (0, [1, 2, 3, 4]) (by decide)
  rcases hw with hin | hcrc
  · exact absurd hin (by decide)
  · exact absurd hcrc (by decide)

/-- C2 amended: under a valid header the `CT_LZ4` arm always appends
exactly one write — the decompressed buffer, truncated to the remaining
logical size — *before* any verification; only the subsequent
classification distinguishes a size mismatch (decompression error), a crc
mismatch (crc error) and a good block, each bumping exactly its own
counter. -/
theorem C2_lz4_write_then_classify (env : ExtEnv) (digest effCS effKS : Nat) (st : ExtState)
    (hm : readLE st.lzBuf 0 4 = 0xF800000F) (h1 : 0 < readLE st.lzBuf 8 4)
    (h2 : readLE st.lzBuf 8 4 ≤ BLOCK_SIZE) (hw : env.writer = true) :
    (processLz4 env digest effCS effKS st).1.writes =
      st.writes ++ [(st.writerPos, (lz4Out env effCS effKS st).take (lz4Tw st))] ∧
    (toUInt64Wrap (lz4Ret env effCS effKS st) ≠ readLE st.lzBuf 8 4 →
      (processLz4 env digest effCS effKS st).1.nErrDecomp = st.nErrDecomp + 1 ∧
      (processLz4 env digest effCS effKS st).1.nErrCRC = st.nErrCRC ∧
      (processLz4 env digest effCS effKS st).1.nOK = st.nOK) ∧
    (toUInt64Wrap (lz4Ret env effCS effKS st) = readLE st.lzBuf 8 4 →
      vcrc32 0 (lz4Out env effCS effKS st) ≠ readLE st.lzBuf 4 4 →
      (processLz4 env digest effCS effKS st).1.nErrCRC = st.nErrCRC + 1 ∧
      (processLz4 env digest effCS effKS st).1.nErrDecomp = st.nErrDecomp ∧
      (processLz4 env digest effCS effKS st).1.nOK = st.nOK) ∧
    (toUInt64Wrap (lz4Ret env effCS effKS st) = readLE st.lzBuf 8 4 →
      vcrc32 0 (lz4Out env effCS effKS st) = readLE st.lzBuf 4 4 →
      (processLz4 env digest effCS effKS st).1.nOK = st.nOK + 1 ∧
      (processLz4 env digest effCS effKS st).1.nErrDecomp = st.nErrDecomp ∧
      (processLz4 env digest effCS effKS st).1.nErrCRC = st.nErrCRC) := by
  simp only [processLz4, lz4Out, lz4Ret, lz4Tw]
  rw [if_pos ⟨hm, h1, h2⟩]
  by_cases hret : toUInt64Wrap
      (env.lz4 ((st.lzBuf.drop 12).take
          (if effKS ≠ 0 then sub64 st.lzBuf.length 12 else sub64 effCS 12))
        (readLE st.lzBuf 8 4) (resizeList st.lzBuf2 (readLE st.lzBuf 8 4) 0)).1
      = readLE st.lzBuf 8 4
  · rw [if_neg (not_not_intro hret)]
    by_cases hcrc : vcrc32 0 (resizeList
        (env.lz4 ((st.lzBuf.drop 12).take
            (if effKS ≠ 0 then sub64 st.lzBuf.length 12 else sub64 effCS 12))
          (readLE st.lzBuf 8 4) (resizeList st.lzBuf2 (readLE st.lzBuf 8 4) 0)).2
        (readLE st.lzBuf 8 4) 0) = readLE st.lzBuf 4 4
    · rw [if_neg (not_not_intro hcrc)]
      exact ⟨by simp [writeOut, hw], fun hne => absurd hret hne, fun _ hne => absurd hcrc hne,
        fun _ _ => by simp [writeOut]⟩
    · rw [if_pos hcrc]
      exact ⟨by simp [writeOut, hw], fun hne => absurd hret hne, fun _ _ => by simp [writeOut],
        fun _ hceq => absurd hceq hcrc⟩
  · rw [if_pos hret]
    exact ⟨by simp [writeOut, hw], fun _ => by simp [writeOut], fun heq _ => absurd heq hret,
      fun heq _ => absurd heq hret⟩

/-- Witness for C2: the write-then-classify contract evaluated on the
crc-mismatching block of `c2St` (it lands in the crc-error case). -/
theorem C2_witness :
    (processLz4 c2Env 1 16 0 c2St).1.writes =
      c2St.writes ++ [(c2St.writerPos, (lz4Out c2Env 16 0 c2St).take (lz4Tw c2St))] ∧
    (toUInt64Wrap (lz4Ret c2Env 16 0 c2St) ≠ readLE c2St.lzBuf 8 4 →
      (processLz4 c2Env 1 16 0 c2St).1.nErrDecomp = c2St.nErrDecomp + 1 ∧
      (processLz4 c2Env 1 16 0 c2St).1.nErrCRC = c2St.nErrCRC ∧
      (processLz4 c2Env 1 16 0 c2St).1.nOK = c2St.nOK) ∧
    (toUInt64Wrap (lz4Ret c2Env 16 0 c2St) = readLE c2St.lzBuf 8 4 →
      vcrc32 0 (lz4Out c2Env 16 0 c2St) ≠ readLE c2St.lzBuf 4 4 →
      (processLz4 c2Env 1 16 0 c2St).1.nErrCRC = c2St.nErrCRC + 1 ∧
      (processLz4 c2Env 1 16 0 c2St).1.nErrDecomp = c2St.nErrDecomp ∧
      (processLz4 c2Env 1 16 0 c2St).1.nOK = c2St.nOK) ∧
    (toUInt64Wrap (lz4Ret c2Env 16 0 c2St) = readLE c2St.lzBuf 8 4 →
      vcrc32 0 (lz4Out c2Env 16 0 c2St) = readLE c2St.lzBuf 4 4 →
      (processLz4 c2Env 1 16 0 c2St).1.nOK = c2St.nOK + 1 ∧
      (processLz4 c2Env 1 16 0 c2St).1.nErrDecomp = c2St.nErrDecomp ∧
      (processLz4 c2Env 1 16 0 c2St).1.nErrCRC = c2St.nErrCRC) :=
  C2_lz4_write_then_classify c2Env 1 16 0 c2St (by decide) (by decide) (by decide) rfl

/-- Claim C7 fails: the seek is issued only for blocks satisfying
`VBlockDesc::is_patch` — full-size *and* `vib_offset ≠ 0` — so a diff-file
block with `vib_offset = 0` is written wherever the writer already stands
(4096 here), not at offset 0. -/
theorem C7_counterexample : ¬ C7Claim := by
  intro h
  have hw := h c7Env c7Blk c7St c7CexSt rfl rfl (by decide) (4096, [5, 5]) (by decide)
  rcases hw with hin | heq
  · exact absurd hin (by decide)
  · exact absurd heq (by decide)

theorem applySkip_writes (env : ExtEnv) (t : ExtState) (k : Nat) :
    (applySkip env t k).writes = t.writes := by
  unfold applySkip
  split <;> rfl

theorem writeOut_writes (env : ExtEnv) (s : ExtState) (out : List Nat) (tw : Nat) :
    (writeOut env s out tw).writes = s.writes ∨
      ∃ b, (writeOut env s out tw).writes = s.writes ++ [(s.writerPos, b)] := by
  by_cases hw : env.writer = true
  · exact Or.inr ⟨out.take tw, by simp [writeOut, hw]⟩
  · rw [Bool.not_eq_true] at hw
    exact Or.inl (by simp [writeOut, hw])

theorem writeAccept_writes (env : ExtEnv) (s : ExtState) (out : List Nat) (tw key : Nat) :
    (writeAccept env s out tw key).writes = s.writes ∨
      ∃ b, (writeAccept env s out tw key).writes = s.writes ++ [(s.writerPos, b)] := by
  have hwo := writeOut_writes env s out tw
  simpa [writeAccept] using hwo

theorem processLz4_writes (env : ExtEnv) (digest effCS effKS : Nat) (s : ExtState) :
    (processLz4 env digest effCS effKS s).1.writes = s.writes ∨
      ∃ b, (processLz4 env digest effCS effKS s).1.writes = s.writes ++ [(s.writerPos, b)] := by
  by_cases hh : readLE s.lzBuf 0 4 = 0xF800000F ∧ 0 < readLE s.lzBuf 8 4 ∧
      readLE s.lzBuf 8 4 ≤ BLOCK_SIZE
  · have hred : (processLz4 env digest effCS effKS s).1.writes =
        (writeOut env s (lz4Out env effCS effKS s) (lz4Tw s)).writes := by
      simp only [processLz4, lz4Out, lz4Tw]
      rw [if_pos hh]
      simp [apply_ite (fun p : ExtState × Nat => p.1.writes), ite_self]
    rw [hred]
    exact writeOut_writes env s _ _
  · refine Or.inl ?_
    simp only [processLz4]
    rw [if_neg hh]

theorem writes_transport (s2 s st' : ExtState)
    (hw : s2.writes = s.writes) (hp : s2.writerPos = s.writerPos)
    (h : st'.writes = s2.writes ∨ ∃ b, st'.writes = s2.writes ++ [(s2.writerPos, b)]) :
    st'.writes = s.writes ∨ ∃ b, st'.writes = s.writes ++ [(s.writerPos, b)] := by
  rw [hw, hp] at h
  exact h

set_option maxHeartbeats 1600000 in
theorem processBlockSwitch_writes (env : ExtEnv) (blk : VBlockDesc) (blkDesc : BlockDescriptor)
    (effCT effCS effKS : Nat) (s st' : ExtState)
    (h : processBlockSwitch env blk blkDesc effCT effCS effKS s = .ok st') :
    st'.writes = s.writes ∨ ∃ b, st'.writes = s.writes ++ [(s.writerPos, b)] := by
  simp only [processBlockSwitch] at h
  repeat' split at h
  all_goals
    first
    | exact Except.noConfusion h
    | (injection h with h
       subst h
       first
       | exact writeAccept_writes env _ _ _ _
       | exact Or.inl (applySkip_writes env _ _)
       | (rw [applySkip_writes]
          exact processLz4_writes env _ _ _ _))

set_option maxHeartbeats 1600000 in
theorem processBlockRead_writes (env : ExtEnv) (blk : VBlockDesc) (blkDesc : BlockDescriptor)
    (pos dev effCT effAS effCS effKS : Nat) (s st' : ExtState)
    (h : processBlockRead env blk blkDesc pos dev effCT effAS effCS effKS s = .ok st') :
    st'.writes = s.writes ∨ ∃ b, st'.writes = s.writes ++ [(s.writerPos, b)] := by
  simp only [processBlockRead] at h
  repeat' split at h
  all_goals
    first
    | exact Except.noConfusion h
    | exact writes_transport _ s st'
        (by simp [apply_ite ExtState.writes, ite_self])
        (by simp [apply_ite ExtState.writerPos, ite_self])
        (processBlockSwitch_writes env blk blkDesc effCT effCS effKS _ st' h)
    | (injection h with h
       subst h
       exact Or.inl (by simp [applySkip_writes, apply_ite ExtState.writes, ite_self]))

/-- C7 amended: a resolved block's processing appends at most one write,
and that write starts at `vib_offset * BLOCK_SIZE` exactly when the
session is a diff-file writer *and* the block satisfies
`VBlockDesc::is_patch` (full-size with `vib_offset ≠ 0`); otherwise it
starts at the writer's current position. -/
theorem C7_write_position (env : ExtEnv) (blk : VBlockDesc) (blkDesc : BlockDescriptor)
    (st st' : ExtState) (h : processBlockResolved env blk blkDesc st = .ok st') :
    st'.writes = st.writes ∨
      ∃ b, st'.writes = st.writes ++ [(seekTarget env blk st, b)] := by
  simp only [processBlockResolved] at h
  by_cases hcond : (env.writer && env.isDiff && blk.is_patch) = true
  · rw [if_pos hcond] at h
    have htgt : seekTarget env blk st = blk.vib_offset * BLOCK_SIZE := by
      unfold seekTarget
      rw [if_pos hcond]
    rw [htgt]
    split at h
    · split at h
      · exact processBlockRead_writes env blk blkDesc _ _ _ _ _ _ _ st' h
      · injection h with h
        subst h
        exact Or.inl (by simp [applySkip_writes])
    · exact processBlockRead_writes env blk blkDesc _ _ _ _ _ _ _ st' h
  · rw [if_neg hcond] at h
    have htgt : seekTarget env blk st = st.writerPos := by
      unfold seekTarget
      rw [if_neg hcond]
    rw [htgt]
    split at h
    · split at h
      · exact processBlockRead_writes env blk blkDesc _ _ _ _ _ _ _ st' h
      · injection h with h
        subst h
        exact Or.inl (by simp [applySkip_writes])
    · exact processBlockRead_writes env blk blkDesc _ _ _ _ _ _ _ st' h

/-- Witness for C7: the write-position contract evaluated on a diff-file
patch block with `vib_offset 3` — its two bytes land at `3 * BLOCK_SIZE`,
not at the writer's prior position 4096. -/
theorem C7_witness :
    c7wSt.writes = c7St.writes ∨
      ∃ b, c7wSt.writes = c7St.writes ++ [(seekTarget c7Env c7wBlk c7St, b)] :=
  C7_write_position c7Env c7wBlk c7Bd c7St c7wSt (by decide)

end VeeamPhaser
